import Mathlib

/-!
Shallow embedding of the zone-file lexer and parser of the godns package
(`zscan.go`, `dns.go`) together with the RR data model, and proofs of the
specification claims about them.  Strings are modelled as `List Char`,
machine integers as `Nat`/`Int` with explicit reduction modulo `2^w` where
Go performs a conversion.  The concurrent channel pipeline of the source is
modelled by explicit lists of tokens: the lexer produces the complete token
list, the parser consumes it; reading from a closed channel yields the zero
`lex` value, modelled by reading from the empty list.
-/

/-- Abbreviation turning a string literal into the `List Char` representation
used throughout the development. -/
def strL (s : String) : List Char := s.toList

/-- ASCII uppercase of one character, model of `strings.ToUpper` per character. -/
def upChar (c : Char) : Char :=
  if 'a' ≤ c ∧ c ≤ 'z' then Char.ofNat (c.toNat - 32) else c

/-- Model of `strings.ToUpper` on our string representation. -/
def toUpperL (s : List Char) : List Char := s.map upChar

/-- Decimal digit test, as in Go `'0' <= c && c <= '9'`. -/
def isDigitCh (c : Char) : Bool := '0' ≤ c ∧ c ≤ '9'

/-- Numeric value of a decimal digit character. -/
def digitVal (c : Char) : Nat := c.toNat - '0'.toNat

/-- Value of a list of decimal digits, most significant first. -/
def digitsVal (s : List Char) : Nat := s.foldl (fun n c => n * 10 + digitVal c) 0

/-- Model of Go `strconv.Atoi` on a 64-bit platform: an optional sign followed
by at least one decimal digit, with the result required to fit in `int64`. -/
def atoi (s : List Char) : Option Int :=
  match s with
  | [] => none
  | c :: rest =>
    let (neg, ds) :=
      if c = '-' then (true, rest)
      else if c = '+' then (false, rest)
      else (false, s)
    if ds = [] then none
    else if ds.all isDigitCh then
      let v : Int := if neg then -(digitsVal ds : Int) else (digitsVal ds : Int)
      if v < -(2 ^ 63) ∨ v > 2 ^ 63 - 1 then none else some v
    else none

/-- Go conversion `uint32(i)` of an `int`: reduction modulo `2^32`. -/
def toUint32 (i : Int) : Nat := (i % (2 ^ 32 : Int)).toNat

/-- Go conversion `uint16(i)` of an `int`: reduction modulo `2^16`. -/
def toUint16 (i : Int) : Nat := (i % (2 ^ 16 : Int)).toNat

/-- Go conversion `uint8(i)` of an `int`: reduction modulo `2^8`. -/
def toUint8 (i : Int) : Nat := (i % (2 ^ 8 : Int)).toNat

/-! ## RR type and class tables

`types.go` of the repository is not among the given sources; only its users
are.  The tables below are therefore modelled from the spec. -/

/-- Modelled from the spec: the known-RR-type table `Str_rr` lives in
`types.go`, which is not part of the given sources.  Spec §3 fixes the closed
set of variants `A, AAAA, NS, CNAME, MX, SOA, TXT, SSHFP, DS, DNSKEY, RRSIG,
NSEC, NSEC3, OPT`; the numeric codes are the standard DNS type codes. -/
def rrTable : List (List Char × Nat) :=
  [(strL "A", 1), (strL "NS", 2), (strL "CNAME", 5), (strL "SOA", 6),
   (strL "MX", 15), (strL "TXT", 16), (strL "AAAA", 28), (strL "OPT", 41),
   (strL "DS", 43), (strL "SSHFP", 44), (strL "RRSIG", 46), (strL "NSEC", 47),
   (strL "DNSKEY", 48), (strL "NSEC3", 50)]

/-- Lookup in the known-RR-type table, model of `Str_rr[...]`. -/
def Str_rr (s : List Char) : Option Nat :=
  (rrTable.find? (fun p => p.1 == s)).map (·.2)

/-- Modelled from the spec: the known-class table `Str_class` lives in
`types.go`, which is not part of the given sources.  Spec §3 fixes the
default class `IN = 1`; the remaining entries are the standard DNS classes. -/
def classTable : List (List Char × Nat) :=
  [(strL "IN", 1), (strL "CH", 3), (strL "HS", 4),
   (strL "NONE", 254), (strL "ANY", 255)]

/-- Lookup in the known-class table, model of `Str_class[...]`. -/
def Str_class (s : List Char) : Option Nat :=
  (classTable.find? (fun p => p.1 == s)).map (·.2)

/-- `ClassINET` from `dns.go`/`types.go`: the IN class code. -/
def ClassINET : Nat := 1

/-- `DefaultTtl` constant from `dns.go`. -/
def DefaultTtl : Nat := 3600

/-- `TypeA` code, used by the `setRR` dispatch. -/
def TypeA : Nat := 1
/-- `TypeNS` code. -/
def TypeNS : Nat := 2
/-- `TypeCNAME` code. -/
def TypeCNAME : Nat := 5
/-- `TypeSOA` code. -/
def TypeSOA : Nat := 6
/-- `TypeMX` code. -/
def TypeMX : Nat := 15
/-- `TypeTXT` code. -/
def TypeTXT : Nat := 16
/-- `TypeAAAA` code. -/
def TypeAAAA : Nat := 28
/-- `TypeDS` code. -/
def TypeDS : Nat := 43
/-- `TypeSSHFP` code. -/
def TypeSSHFP : Nat := 44
/-- `TypeRRSIG` code. -/
def TypeRRSIG : Nat := 46
/-- `TypeNSEC` code. -/
def TypeNSEC : Nat := 47
/-- `TypeDNSKEY` code. -/
def TypeDNSKEY : Nat := 48
/-- `TypeNSEC3` code. -/
def TypeNSEC3 : Nat := 50

/-! ## Domain name helpers from `dns.go` -/

/-- `IsFqdn` from `dns.go`: a name is fully qualified when it is non-empty and
its last character is a dot. -/
def IsFqdn (s : List Char) : Bool :=
  match s with
  | [] => false
  | _ => s.getLastD ' ' = '.'

/-- `Fqdn` from `dns.go`: append a trailing dot unless already present. -/
def Fqdn (s : List Char) : List Char :=
  if IsFqdn s then s else s ++ ['.']

/-- The character loop of `IsDomainName`, carrying `last`, `ok`, `partlen`
and `labels` exactly as the Go loop does. -/
def idnLoop : List Char → Char → Bool → Nat → Nat → Nat × Bool
  | [], _, ok, _, labels => (labels, ok)
  | c :: rest, last, ok, partlen, labels =>
    if ('a' ≤ c ∧ c ≤ 'z') ∨ ('A' ≤ c ∧ c ≤ 'Z') ∨ c = '_' ∨ c = '*' then
      idnLoop rest c true (partlen + 1) labels
    else if c = '\\' then
      idnLoop rest c ok partlen labels
    else if '0' ≤ c ∧ c ≤ '9' then
      idnLoop rest c ok (partlen + 1) labels
    else if c = '-' then
      if last = '.' then (0, false)
      else idnLoop rest c ok (partlen + 1) labels
    else if c = '.' then
      if last = '.' ∨ last = '-' then (0, false)
      else if last = '\\' then idnLoop rest c ok (partlen + 1) labels
      else if partlen > 63 ∨ partlen = 0 then (0, false)
      else idnLoop rest c ok 0 (labels + 1)
    else (0, false)

/-- `IsDomainName` from `dns.go`: syntactic domain-name check returning the
label count and validity. -/
def IsDomainName (s : List Char) : Nat × Bool :=
  if s.length = 0 then (0, false)
  else if s.length > 255 then (0, false)
  else idnLoop (Fqdn s) '.' false 0 0

/-! ## IP address parsing (model of Go `net.ParseIP`) -/

/-- The digit-consuming loop of Go `net.dtoi` with its `big = 0xFFFFFF`
cutoff; returns the value, the unconsumed remainder and the success flag. -/
def dtoiAux : List Char → Nat → Nat × List Char × Bool
  | [], n => (n, [], true)
  | c :: rest, n =>
    if isDigitCh c then
      let n' := n * 10 + digitVal c
      if n' ≥ 0xFFFFFF then (0, c :: rest, false)
      else dtoiAux rest n'
    else (n, c :: rest, true)

/-- Go `net.dtoi`: parse a decimal run; fails when no digit is present. -/
def dtoi (s : List Char) : Nat × List Char × Bool :=
  match s with
  | c :: _ => if isDigitCh c then dtoiAux s 0 else (0, s, false)
  | [] => (0, s, false)

/-- The per-octet loop of Go `net.parseIPv4`: four decimal fields ≤ 255
separated by dots, with the whole string consumed.  `j` counts the octets
still to read; `first` marks the first octet (no leading dot). -/
def pv4Loop : Nat → Bool → List Char → List Nat → Option (List Nat)
  | 0, _, s, acc => if s = [] then some acc else none
  | j + 1, first, s, acc =>
    if s = [] then none
    else
      let s1 : Option (List Char) :=
        if first then some s
        else
          match s with
          | c :: r => if c = '.' then some r else none
          | [] => none
      match s1 with
      | none => none
      | some s2 =>
        let (n, rest, ok) := dtoi s2
        if ¬ ok ∨ n > 0xFF then none
        else pv4Loop j false rest (acc ++ [n])

/-- Model of Go `net.parseIPv4`: the four-octet dotted form; the result is
represented as the list of the four octet values. -/
def parseIPv4 (s : List Char) : Option (List Nat) :=
  pv4Loop 4 true s []

/-- Hex digit test. -/
def isHexCh (c : Char) : Bool :=
  ('0' ≤ c ∧ c ≤ '9') ∨ ('a' ≤ c ∧ c ≤ 'f') ∨ ('A' ≤ c ∧ c ≤ 'F')

/-- Hex digit value. -/
def hexVal (c : Char) : Nat :=
  if '0' ≤ c ∧ c ≤ '9' then c.toNat - '0'.toNat
  else if 'a' ≤ c ∧ c ≤ 'f' then c.toNat - 'a'.toNat + 10
  else c.toNat - 'A'.toNat + 10

/-- Split a character list at every colon. -/
def splitColon : List Char → List (List Char)
  | [] => [[]]
  | c :: rest =>
    if c = ':' then [] :: splitColon rest
    else
      match splitColon rest with
      | [] => [[c]]
      | g :: gs => (c :: g) :: gs

/-- Parse one 16-bit hexadecimal IPv6 group of one to four digits. -/
def hexGroup (s : List Char) : Option Nat :=
  if s ≠ [] ∧ s.length ≤ 4 ∧ s.all isHexCh then
    some (s.foldl (fun n c => n * 16 + hexVal c) 0)
  else none

/-- Parse the colon-separated groups of an IPv6 address into 16-bit values;
the final group may be a dotted IPv4 quad contributing two groups. -/
def v6Groups : List (List Char) → Option (List Nat)
  | [] => some []
  | [g] =>
    if g.contains '.' then
      match parseIPv4 g with
      | some [a, b, c, d] => some [a * 256 + b, c * 256 + d]
      | _ => none
    else (hexGroup g).map ([·])
  | g :: gs =>
    match hexGroup g, v6Groups gs with
    | some n, some ns => some (n :: ns)
    | _, _ => none

/-- Model of Go `net.parseIPv6`: groups of hex digits separated by colons,
at most one `::` ellipsis filling with zero groups, an optional trailing
dotted IPv4 quad; the result is the list of the sixteen byte values. -/
def parseIPv6 (s : List Char) : Option (List Nat) :=
  let toBytes (gs : List Nat) : List Nat :=
    gs.flatMap (fun g => [g / 256, g % 256])
  match splitColon s with
  | [] => none
  | parts =>
    -- locate a single ellipsis: one empty interior part, or leading/trailing
    -- double-colon producing two adjacent empty parts at an end
    let parts :=
      match parts with
      | [] :: [] :: rest => [] :: rest      -- leading "::"
      | _ => parts
    let parts :=
      match parts.reverse with
      | [] :: [] :: rest => ([] :: rest).reverse  -- trailing "::"
      | _ => parts
    if parts.count [] > 1 then none
    else
      match parts.findIdx? (· = []) with
      | none =>
        match v6Groups parts with
        | some gs => if gs.length = 8 then some (toBytes gs) else none
        | none => none
      | some i =>
        let pre := parts.take i
        let post := parts.drop (i + 1)
        match v6Groups pre, v6Groups post with
        | some g1, some g2 =>
          if g1.length + g2.length < 8 then
            some (toBytes (g1 ++ List.replicate (8 - g1.length - g2.length) 0 ++ g2))
          else none
        | _, _ => none

/-- Model of Go `net.ParseIP`: scan for the first dot or colon to decide
between the IPv4 and IPv6 forms; no separator means failure. -/
def pipScan (orig : List Char) : List Char → Option (List Nat)
  | [] => none
  | c :: rest =>
    if c = '.' then parseIPv4 orig
    else if c = ':' then parseIPv6 orig
    else pipScan orig rest

/-- Model of Go `net.ParseIP`. -/
def parseIP (s : List Char) : Option (List Nat) := pipScan s s

/-! ## Token kinds (the `iota` constants of `zscan.go`) -/

/-- Token kind `_EOF` (the zero value, which a read from a closed channel
also produces). -/
def vEOF : Nat := 0
/-- Token kind `_STRING`. -/
def vSTRING : Nat := 1
/-- Token kind `_BLANK`. -/
def vBLANK : Nat := 2
/-- Token kind `_NEWLINE`. -/
def vNEWLINE : Nat := 3
/-- Token kind `_RRTYPE`. -/
def vRRTYPE : Nat := 4
/-- Token kind `_OWNER`. -/
def vOWNER : Nat := 5
/-- Token kind `_CLASS`. -/
def vCLASS : Nat := 6
/-- Token kind `_DIRORIGIN`. -/
def vDIRORIGIN : Nat := 7
/-- Token kind `_DIRTTL`. -/
def vDIRTTL : Nat := 8
/-- Token kind `_DIRINCLUDE`. -/
def vDIRINCLUDE : Nat := 9

/-- Parser state `_EXPECT_OWNER_DIR`. -/
def stOWNER_DIR : Nat := 12
/-- Parser state `_EXPECT_OWNER_BL`. -/
def stOWNER_BL : Nat := 13
/-- Parser state `_EXPECT_ANY`. -/
def stANY : Nat := 14
/-- Parser state `_EXPECT_ANY_NOCLASS`. -/
def stANY_NOCLASS : Nat := 15
/-- Parser state `_EXPECT_ANY_NOCLASS_BL`. -/
def stANY_NOCLASS_BL : Nat := 16
/-- Parser state `_EXPECT_ANY_NOTTL`. -/
def stANY_NOTTL : Nat := 17
/-- Parser state `_EXPECT_ANY_NOTTL_BL`. -/
def stANY_NOTTL_BL : Nat := 18
/-- Parser state `_EXPECT_RRTYPE`. -/
def stRRTYPE : Nat := 19
/-- Parser state `_EXPECT_RRTYPE_BL`. -/
def stRRTYPE_BL : Nat := 20
/-- Parser state `_EXPECT_RDATA`. -/
def stRDATA : Nat := 21
/-- Parser state `_EXPECT_DIRTTL_BL`. -/
def stDIRTTL_BL : Nat := 22
/-- Parser state `_EXPECT_DIRTTL`. -/
def stDIRTTL : Nat := 23
/-- Parser state `_EXPECT_DIRORIGIN_BL`. -/
def stDIRORIGIN_BL : Nat := 24
/-- Parser state `_EXPECT_DIRORIGIN`. -/
def stDIRORIGIN : Nat := 25
/-- Parser state `_EXPECT_DIRINCLUDE_BL`. -/
def stDIRINCLUDE_BL : Nat := 26
/-- Parser state `_EXPECT_DIRINCLUDE`. -/
def stDIRINCLUDE : Nat := 27

attribute [simp] vEOF vSTRING vBLANK vNEWLINE vRRTYPE vOWNER vCLASS vDIRORIGIN vDIRTTL vDIRINCLUDE

attribute [simp] stOWNER_DIR stOWNER_BL stANY stANY_NOCLASS stANY_NOCLASS_BL stANY_NOTTL stANY_NOTTL_BL stRRTYPE stRRTYPE_BL stRDATA stDIRTTL_BL stDIRTTL stDIRORIGIN_BL stDIRORIGIN stDIRINCLUDE_BL stDIRINCLUDE

attribute [simp] TypeA TypeNS TypeCNAME TypeSOA TypeMX TypeTXT TypeAAAA TypeDS TypeSSHFP TypeRRSIG TypeNSEC TypeDNSKEY TypeNSEC3 ClassINET DefaultTtl

/-- The `lex` record of `zscan.go`: one token with its text, error text,
kind and position.  The zero value (all fields empty/zero) is what a read
from a closed Go channel yields. -/
structure lex where
  token : List Char := []
  err : List Char := []
  value : Nat := 0
  line : Nat := 0
  column : Nat := 0
deriving DecidableEq, Repr, Inhabited

/-- The `ParseError` record of `zscan.go`. -/
structure ParseErr where
  file : List Char
  errText : List Char
  lex : lex
deriving DecidableEq, Repr

/-! ## The zone lexer `zlexer` -/

/-- The mutable local state of `zlexer`: the persistent `l` token variable,
the accumulator `str`, the flag set, and the brace depth. -/
structure ZLexSt where
  l : lex := {}
  str : List Char := []
  quote : Bool := false
  escape : Bool := false
  space : Bool := false
  commt : Bool := false
  rrtype : Bool := false
  owner : Bool := true
  brace : Nat := 0
deriving DecidableEq, Repr

/-- Directive classification of an owner token: `$TTL`, `$ORIGIN` and
`$INCLUDE` become directive tokens, anything else is `_OWNER`. -/
def classifyOwner (st : ZLexSt) : lex :=
  let v :=
    if st.str = strL "$TTL" then vDIRTTL
    else if st.str = strL "$ORIGIN" then vDIRORIGIN
    else if st.str = strL "$INCLUDE" then vDIRINCLUDE
    else vOWNER
  { st.l with value := v, token := st.str }

/-- Classification of a non-owner word against the RR-type and class
tables (only until the first RR type was seen on the line); returns the
token and the updated `rrtype` flag. -/
def classifyString (st : ZLexSt) : lex × Bool :=
  let l0 := { st.l with value := vSTRING, token := st.str }
  if ¬ st.rrtype then
    let l1 := if (Str_rr (toUpperL st.str)).isSome then { l0 with value := vRRTYPE } else l0
    let rrt := if (Str_rr (toUpperL st.str)).isSome then true else st.rrtype
    let l2 := if (Str_class (toUpperL st.str)).isSome then { l1 with value := vCLASS } else l1
    (l2, rrt)
  else (l0, st.rrtype)

/-- The flush of the accumulator on a space atom: an owner token at line
start, a classified word otherwise, nothing when the accumulator is empty. -/
def zlexFlushSpace (st : ZLexSt) : List lex × ZLexSt :=
  if st.str = [] then ([], st)
  else if st.owner then
    let l := classifyOwner st
    ([l], { st with l := l })
  else
    let (l1, rrt) := classifyString st
    ([l1], { st with l := l1, rrtype := rrt })

/-- The single-`_BLANK` emission after a flush, suppressed when the last
atom was already a space. -/
def zlexBlank (st : ZLexSt) : List lex × ZLexSt :=
  if ¬ st.space ∧ ¬ st.commt then
    let lb := { st.l with value := vBLANK, token := strL " " }
    ([lb], { st with l := lb })
  else ([], st)

/-- The space/tab case of `zlexer` (comment handling is done by the
caller): flush, clear the accumulator, emit at most one `_BLANK`, leave
owner position. -/
def zlexSpace (st1 : ZLexSt) : List lex × ZLexSt :=
  let (flushOut, st2) := zlexFlushSpace st1
  let st3 := { st2 with str := [] }
  let (blankOut, st4) := zlexBlank st3
  (flushOut ++ blankOut, { st4 with owner := false, space := true })

/-- Classification of a word flushed at a newline: only against the
RR-type table (never as an owner or class). -/
def classifyNl (st : ZLexSt) : lex × Bool :=
  let l0 := { st.l with value := vSTRING, token := st.str }
  if ¬ st.rrtype ∧ (Str_rr (toUpperL st.str)).isSome then
    ({ l0 with value := vRRTYPE }, true)
  else (l0, st.rrtype)

/-- The flush of the accumulator on a newline atom. -/
def zlexNlString (st : ZLexSt) : List lex × ZLexSt :=
  if st.str ≠ [] then
    let (l1, rrt) := classifyNl st
    ([l1], { st with l := l1, rrtype := rrt })
  else ([], st)

/-- The newline case of `zlexer` outside comments: flush, then emit a
`_BLANK` inside braces (suppressed after a space) or a `_NEWLINE` at brace
depth zero, and reset the line state.  Note that `l.value` is assigned
`_BLANK` inside braces even when nothing is emitted, which is what the
final `if l.value == _BLANK` of the source observes. -/
def zlexNewline (st1 : ZLexSt) : List lex × ZLexSt :=
  let (strOut, st2) := zlexNlString st1
  let (nlOut, st3) :=
    if st2.brace > 0 then
      let lb := { st2.l with value := vBLANK, token := strL " " }
      (if ¬ st2.space then [lb] else [], { st2 with l := lb })
    else
      let ln := { st2.l with value := vNEWLINE, token := strL "\n" }
      ([ln], { st2 with l := ln })
  let st4 := if st3.l.value = vBLANK then { st3 with space := true } else st3
  (strOut ++ nlOut, { st4 with str := [], commt := false, rrtype := false, owner := true })

/-- One step of `zlexer` on a single scanner atom: the emitted tokens and
the successor state, `none` meaning the lexer returned (extra closing
brace). -/
def zlexStep (st : ZLexSt) (c : Char) : List lex × Option ZLexSt :=
  if c = ' ' ∨ c = '\t' then
    let st := { st with escape := false }
    if st.commt then ([], some st)
    else ((zlexSpace st).1, some (zlexSpace st).2)
  else if c = ';' then
    if st.escape then ([], some { st with escape := false, str := st.str ++ [';'] })
    else if st.quote then ([], some { st with str := st.str ++ [';'] })
    else ([], some { st with commt := true })
  else if c = '\n' then
    let st := { st with escape := false }
    if st.commt then
      -- reset a comment; if not in a brace this ends the comment AND the RR
      let st := { st with commt := false, rrtype := false, str := [] }
      if st.brace = 0 then
        let l := { st.l with value := vNEWLINE, token := strL "\n" }
        ([l], some { st with owner := true, l := l })
      else ([], some st)
    else ((zlexNewline st).1, some (zlexNewline st).2)
  else if c = '\\' then
    if st.commt then ([], some st)
    else if st.escape then ([], some { st with str := st.str ++ ['\\'], escape := false })
    else ([], some { st with str := st.str ++ ['\\'], escape := true })
  else if c = '"' then
    if st.commt then ([], some st)
    else if st.escape then ([], some { st with str := st.str ++ ['"'], escape := false })
    else ([], some { st with quote := ¬ st.quote })
  else if c = '(' then
    if st.commt then ([], some st)
    else if st.escape then ([], some { st with str := st.str ++ ['('], escape := false })
    else ([], some { st with brace := st.brace + 1 })
  else if c = ')' then
    if st.commt then ([], some st)
    else if st.escape then ([], some { st with str := st.str ++ [')'], escape := false })
    else if st.brace = 0 then
      -- Go decrements and checks `brace < 0`: the error token carries the
      -- stale `l.value`/`l.token` with the error text set
      ([{ st.l with err := strL "Extra closing brace" }], none)
    else ([], some { st with brace := st.brace - 1 })
  else
    if st.commt then ([], some st)
    else ([], some { st with escape := false, str := st.str ++ [c], space := false })

/-- The driving loop of `zlexer` over the scanner atoms, threading the
position that `s.Position` reports for each scanned character, and emitting
the final accumulator as a `_STRING` at end of input. -/
def zlexAux : ZLexSt → Nat → Nat → List Char → List lex
  | st, _, _, [] =>
    if st.str ≠ [] then [{ st.l with token := st.str, value := vSTRING }] else []
  | st, line, col, c :: cs =>
    let st := { st with l := { st.l with line := line, column := col } }
    let (out, next) := zlexStep st c
    out ++
      match next with
      | none => []
      | some st' =>
        zlexAux st' (if c = '\n' then line + 1 else line)
          (if c = '\n' then 1 else col + 1) cs

/-- `zlexer` from `zscan.go`: the complete token stream of an input. -/
def zlexer (cs : List Char) : List lex :=
  zlexAux {} 1 1 cs

/-! ## RR data model -/

/-- The common `RR_Header` from `dns.go`. -/
structure RR_Header where
  Name : List Char := []
  Rrtype : Nat := 0
  Class : Nat := 0
  Ttl : Nat := 0
  Rdlength : Nat := 0
deriving DecidableEq, Repr

/-- The variant-specific rdata of the RR types handled by `setRR`
(`zscan_rr` part of `dns.go`).  IPs are represented as their byte lists. -/
inductive RRdata where
  | A (ip : List Nat)
  | AAAA (ip : List Nat)
  | NS (ns : List Char)
  | CNAME (cname : List Char)
  | MX (pref : Nat) (mx : List Char)
  | SOA (ns mbox : List Char) (serial refresh retry expire minttl : Nat)
  | SSHFP (algorithm typ : Nat) (fingerPrint : List Char)
  | DNSKEY (flags protocol algorithm : Nat) (publicKey : List Char)
  | RRSIG (typeCovered algorithm labels origTtl expiration inception keyTag : Nat)
      (signerName signature : List Char)
  | NSEC (nextDomain : List Char) (typeBitMap : List Nat)
  | NSEC3 (hash flags iterations saltLength : Nat) (salt : List Char)
      (hashLength : Nat) (nextDomain : List Char) (typeBitMap : List Nat)
  | DS (keyTag algorithm digestType : Nat) (digest : List Char)
  | TXT (txt : List Char)
deriving DecidableEq, Repr

/-- One parsed resource record: header plus rdata. -/
structure RRm where
  Hdr : RR_Header
  rdata : RRdata
deriving DecidableEq, Repr

/-- The `Token` record sent on the output channel of `parseZone`: either a
scanned RR or a `ParseError`. -/
inductive TokenM where
  | rr (r : RRm)
  | err (e : ParseErr)
deriving DecidableEq, Repr

/-! ## Per-type rdata readers (from `dns.go`) -/

/-- One read from the token channel: the next token or, when the lexer has
closed the channel, the zero `lex` value. -/
def rdNext (ts : List lex) : lex × List lex := (ts.headD {}, ts.tail)

/-- `stringToTtl` from `zscan.go`: `strconv.Atoi` followed by the Go
`uint32` conversion; a non-number produces the error the caller emits. -/
def stringToTtl (l : lex) (f : List Char) : Except ParseErr Nat :=
  match atoi l.token with
  | none => .error ⟨f, strL "Not a TTL", l⟩
  | some ttl => .ok (toUint32 ttl)

/-- Modelled from the spec: `dateToTime` is defined in a source file of the
repository that is not under `src/`; spec §4.3 describes the RRSIG
`expiration`/`inception` fields as RFC-4034 timestamps, "either
seconds-since-epoch or `YYYYMMDDHHMMSS`".  A 14-digit string is read as a
calendar timestamp and converted to seconds since the Unix epoch; anything
else must parse as a decimal seconds value.  The result is a `uint32`. -/
def dateToTime (s : List Char) : Option Nat :=
  if s.length = 14 ∧ s.all isDigitCh then
    let y := digitsVal (s.take 4)
    let mo := digitsVal ((s.drop 4).take 2)
    let d := digitsVal ((s.drop 6).take 2)
    let h := digitsVal ((s.drop 8).take 2)
    let mi := digitsVal ((s.drop 10).take 2)
    let se := digitsVal ((s.drop 12).take 2)
    -- days since 1970-01-01 via the standard civil-calendar formula
    let y' : Int := if mo ≤ 2 then (y : Int) - 1 else (y : Int)
    let era : Int := y' / 400
    let yoe : Int := y' - era * 400
    let mp : Int := ((mo : Int) + 9) % 12
    let doy : Int := (153 * mp + 2) / 5 + (d : Int) - 1
    let doe : Int := yoe * 365 + yoe / 4 - yoe / 100 + doy
    let days : Int := era * 146097 + doe - 719468
    some (toUint32 (days * 86400 + (h : Int) * 3600 + (mi : Int) * 60 + (se : Int)))
  else
    match atoi s with
    | some v => if v < 0 then none else some (toUint32 v)
    | none => none

/-- `setA` from `dns.go`. -/
def setA (h : RR_Header) (ts : List lex) (f : List Char) :
    Except ParseErr RRm × List lex :=
  let (l, ts) := rdNext ts
  match parseIP l.token with
  | none => (.error ⟨f, strL "bad A", l⟩, ts)
  | some ip => (.ok ⟨h, .A ip⟩, ts)

/-- `setAAAA` from `dns.go`. -/
def setAAAA (h : RR_Header) (ts : List lex) (f : List Char) :
    Except ParseErr RRm × List lex :=
  let (l, ts) := rdNext ts
  match parseIP l.token with
  | none => (.error ⟨f, strL "bad AAAA", l⟩, ts)
  | some ip => (.ok ⟨h, .AAAA ip⟩, ts)

/-- `setNS` from `dns.go`. -/
def setNS (h : RR_Header) (ts : List lex) (o f : List Char) :
    Except ParseErr RRm × List lex :=
  let (l, ts) := rdNext ts
  let ns := l.token
  if ¬ (IsDomainName l.token).2 then (.error ⟨f, strL "bad NS Ns", l⟩, ts)
  else
    let ns := if ¬ IsFqdn ns then ns ++ o else ns
    (.ok ⟨h, .NS ns⟩, ts)

/-- `setMX` from `dns.go`. -/
def setMX (h : RR_Header) (ts : List lex) (o f : List Char) :
    Except ParseErr RRm × List lex :=
  let (l, ts) := rdNext ts
  match atoi l.token with
  | none => (.error ⟨f, strL "bad MX Pref", l⟩, ts)
  | some i =>
    let pref := toUint16 i
    let (_, ts) := rdNext ts       -- _BLANK
    let (l, ts) := rdNext ts       -- _STRING
    let mx := l.token
    if ¬ (IsDomainName l.token).2 then (.error ⟨f, strL "bad MX Mx", l⟩, ts)
    else
      let mx := if ¬ IsFqdn mx then mx ++ o else mx
      (.ok ⟨h, .MX pref mx⟩, ts)

/-- `setCNAME` from `dns.go`. -/
def setCNAME (h : RR_Header) (ts : List lex) (o f : List Char) :
    Except ParseErr RRm × List lex :=
  let (l, ts) := rdNext ts
  let cname := l.token
  if ¬ (IsDomainName l.token).2 then (.error ⟨f, strL "bad CNAME", l⟩, ts)
  else
    let cname := if ¬ IsFqdn cname then cname ++ o else cname
    (.ok ⟨h, .CNAME cname⟩, ts)

/-- `setSOA` from `dns.go`, including its quirk of checking the mname token
again after discarding the blank. -/
def setSOA (h : RR_Header) (ts : List lex) (o f : List Char) :
    Except ParseErr RRm × List lex :=
  let (l, ts) := rdNext ts
  let ns := l.token
  let (_, ts) := rdNext ts         -- _BLANK
  if ¬ (IsDomainName l.token).2 then (.error ⟨f, strL "bad SOA mname", l⟩, ts)
  else
    let ns := if ¬ IsFqdn ns then ns ++ o else ns
    let (l, ts) := rdNext ts
    let mbox := l.token
    if ¬ (IsDomainName l.token).2 then (.error ⟨f, strL "bad SOA rname", l⟩, ts)
    else
      let mbox := if ¬ IsFqdn mbox then mbox ++ o else mbox
      let (_, ts) := rdNext ts     -- _BLANK
      let (l, ts) := rdNext ts
      match atoi l.token with
      | none => (.error ⟨f, strL "bad SOA zone parameter", l⟩, ts)
      | some serial =>
        let (_, ts) := rdNext ts   -- _BLANK
        let (l, ts) := rdNext ts
        match atoi l.token with
        | none => (.error ⟨f, strL "bad SOA zone parameter", l⟩, ts)
        | some refresh =>
          let (_, ts) := rdNext ts -- _BLANK
          let (l, ts) := rdNext ts
          match atoi l.token with
          | none => (.error ⟨f, strL "bad SOA zone parameter", l⟩, ts)
          | some retr =>
            let (_, ts) := rdNext ts -- _BLANK
            let (l, ts) := rdNext ts
            match atoi l.token with
            | none => (.error ⟨f, strL "bad SOA zone parameter", l⟩, ts)
            | some expire =>
              let (_, ts) := rdNext ts -- _BLANK
              let (l, ts) := rdNext ts
              match atoi l.token with
              | none => (.error ⟨f, strL "bad SOA zone parameter", l⟩, ts)
              | some minttl =>
                (.ok ⟨h, .SOA ns mbox (toUint32 serial) (toUint32 refresh)
                  (toUint32 retr) (toUint32 expire) (toUint32 minttl)⟩, ts)

/-- `setSSHFP` from `dns.go`. -/
def setSSHFP (h : RR_Header) (ts : List lex) (f : List Char) :
    Except ParseErr RRm × List lex :=
  let (l, ts) := rdNext ts
  match atoi l.token with
  | none => (.error ⟨f, strL "bad SSHFP", l⟩, ts)
  | some alg =>
    let (_, ts) := rdNext ts       -- _BLANK
    let (l, ts) := rdNext ts
    match atoi l.token with
    | none => (.error ⟨f, strL "bad SSHFP", l⟩, ts)
    | some typ =>
      let (_, ts) := rdNext ts     -- _BLANK
      let (l, ts) := rdNext ts
      (.ok ⟨h, .SSHFP (toUint8 alg) (toUint8 typ) l.token⟩, ts)

/-- The trailing accumulation loop shared by `setDNSKEY`, `setRRSIG` and
`setDS`: gather `_STRING` tokens and skip `_BLANK`s until `_NEWLINE` or
`_EOF`, flagging anything else with the reader's error message. -/
def tailStrings (f msg : List Char) : List lex → List Char →
    Except ParseErr (List Char) × List lex
  | [], acc => (.ok acc, [])   -- closed channel: the zero lex has value _EOF
  | l :: rest, acc =>
    if l.value = vNEWLINE ∨ l.value = vEOF then (.ok acc, rest)
    else if l.value = vSTRING then tailStrings f msg rest (acc ++ l.token)
    else if l.value = vBLANK then tailStrings f msg rest acc
    else (.error ⟨f, msg, l⟩, rest)

/-- `setDNSKEY` from `dns.go`. -/
def setDNSKEY (h : RR_Header) (ts : List lex) (f : List Char) :
    Except ParseErr RRm × List lex :=
  let (l, ts) := rdNext ts
  match atoi l.token with
  | none => (.error ⟨f, strL "bad DNSKEY", l⟩, ts)
  | some flags =>
    let (_, ts) := rdNext ts       -- _BLANK
    let (l, ts) := rdNext ts       -- _STRING
    match atoi l.token with
    | none => (.error ⟨f, strL "bad DNSKEY", l⟩, ts)
    | some protocol =>
      let (_, ts) := rdNext ts     -- _BLANK
      let (l, ts) := rdNext ts     -- _STRING
      match atoi l.token with
      | none => (.error ⟨f, strL "bad DNSKEY", l⟩, ts)
      | some alg =>
        let p := tailStrings f (strL "bad DNSKEY") ts []
        (p.1.map (fun s =>
          ⟨h, .DNSKEY (toUint16 flags) (toUint8 protocol) (toUint8 alg) s⟩), p.2)

/-- `setRRSIG` from `dns.go`. -/
def setRRSIG (h : RR_Header) (ts : List lex) (o f : List Char) :
    Except ParseErr RRm × List lex :=
  let (l, ts) := rdNext ts
  match Str_rr (toUpperL l.token) with
  | none => (.error ⟨f, strL "bad RRSIG", l⟩, ts)
  | some t =>
    let (_, ts) := rdNext ts       -- _BLANK
    let (l, ts) := rdNext ts
    match atoi l.token with
    | none => (.error ⟨f, strL "bad RRSIG", l⟩, ts)
    | some alg =>
      let (_, ts) := rdNext ts     -- _BLANK
      let (l, ts) := rdNext ts
      match atoi l.token with
      | none => (.error ⟨f, strL "bad RRSIG", l⟩, ts)
      | some labels =>
        let (_, ts) := rdNext ts   -- _BLANK
        let (l, ts) := rdNext ts
        match atoi l.token with
        | none => (.error ⟨f, strL "bad RRSIG", l⟩, ts)
        | some origttl =>
          let (_, ts) := rdNext ts -- _BLANK
          let (l, ts) := rdNext ts
          match dateToTime l.token with
          | none => (.error ⟨f, strL "bad RRSIG expiration", l⟩, ts)
          | some expiration =>
            let (_, ts) := rdNext ts -- _BLANK
            let (l, ts) := rdNext ts
            match dateToTime l.token with
            | none => (.error ⟨f, strL "bad RRSIG inception", l⟩, ts)
            | some inception =>
              let (_, ts) := rdNext ts -- _BLANK
              let (l, ts) := rdNext ts
              match atoi l.token with
              | none => (.error ⟨f, strL "bad RRSIG keytag", l⟩, ts)
              | some keytag =>
                let (_, ts) := rdNext ts -- _BLANK
                let (l, ts) := rdNext ts
                let signer := l.token
                if ¬ (IsDomainName l.token).2 then
                  (.error ⟨f, strL "bad RRSIG signername", l⟩, ts)
                else
                  let signer := if ¬ IsFqdn signer then signer ++ o else signer
                  let p := tailStrings f (strL "bad RRSIG signature") ts []
                  (p.1.map (fun s =>
                    ⟨h, .RRSIG t (toUint8 alg) (toUint8 labels)
                      (toUint32 origttl) expiration inception (toUint16 keytag)
                      signer s⟩), p.2)

/-- The type-bitmap accumulation loop shared by `setNSEC` and `setNSEC3`:
each `_STRING` must name a known RR type. -/
def bitmapTail (f msgNonRR msgGarbage : List Char) : List lex → List Nat →
    Except ParseErr (List Nat) × List lex
  | [], acc => (.ok acc, [])   -- closed channel: the zero lex has value _EOF
  | l :: rest, acc =>
    if l.value = vNEWLINE ∨ l.value = vEOF then (.ok acc, rest)
    else if l.value = vBLANK then bitmapTail f msgNonRR msgGarbage rest acc
    else if l.value = vSTRING then
      match Str_rr (toUpperL l.token) with
      | none => (.error ⟨f, msgNonRR, l⟩, rest)
      | some k => bitmapTail f msgNonRR msgGarbage rest (acc ++ [k])
    else (.error ⟨f, msgGarbage, l⟩, rest)

/-- `setNSEC` from `dns.go`. -/
def setNSEC (h : RR_Header) (ts : List lex) (o f : List Char) :
    Except ParseErr RRm × List lex :=
  let (l, ts) := rdNext ts
  let next := l.token
  if ¬ (IsDomainName l.token).2 then
    (.error ⟨f, strL "bad NSEC nextdomain", l⟩, ts)
  else
    let next := if ¬ IsFqdn next then next ++ o else next
    let p := bitmapTail f (strL "bad NSEC non RR in type bitmap")
        (strL "bad NSEC garbage in type bitmap") ts []
    (p.1.map (fun bm => ⟨h, .NSEC next bm⟩), p.2)

/-- `setNSEC3` from `dns.go` (which reuses the "bad NSEC nextdomain" message
for its next-domain check). -/
def setNSEC3 (h : RR_Header) (ts : List lex) (o f : List Char) :
    Except ParseErr RRm × List lex :=
  let (l, ts) := rdNext ts
  match atoi l.token with
  | none => (.error ⟨f, strL "bad NSEC3", l⟩, ts)
  | some hash =>
    let (_, ts) := rdNext ts       -- _BLANK
    let (l, ts) := rdNext ts
    match atoi l.token with
    | none => (.error ⟨f, strL "bad NSEC3", l⟩, ts)
    | some flags =>
      let (_, ts) := rdNext ts     -- _BLANK
      let (l, ts) := rdNext ts
      match atoi l.token with
      | none => (.error ⟨f, strL "bad NSEC3", l⟩, ts)
      | some iter =>
        let (_, ts) := rdNext ts
        let (l, ts) := rdNext ts
        let saltLen := toUint8 (l.token.length : Int)
        let salt := l.token
        let (_, ts) := rdNext ts
        let (l, ts) := rdNext ts
        let hashLen := toUint8 (l.token.length : Int)
        let next := l.token
        if ¬ (IsDomainName l.token).2 then
          (.error ⟨f, strL "bad NSEC nextdomain", l⟩, ts)
        else
          let next := if ¬ IsFqdn next then next ++ o else next
          let p := bitmapTail f (strL "bad NSEC3") (strL "bad NSEC3") ts []
          (p.1.map (fun bm =>
            ⟨h, .NSEC3 (toUint8 hash) (toUint8 flags) (toUint16 iter)
              saltLen salt hashLen next bm⟩), p.2)

/-- `setDS` from `dns.go`. -/
def setDS (h : RR_Header) (ts : List lex) (f : List Char) :
    Except ParseErr RRm × List lex :=
  let (l, ts) := rdNext ts
  match atoi l.token with
  | none => (.error ⟨f, strL "bad DS", l⟩, ts)
  | some keytag =>
    let (_, ts) := rdNext ts       -- _BLANK
    let (l, ts) := rdNext ts
    match atoi l.token with
    | none => (.error ⟨f, strL "bad DS", l⟩, ts)
    | some alg =>
      let (_, ts) := rdNext ts     -- _BLANK
      let (l, ts) := rdNext ts
      match atoi l.token with
      | none => (.error ⟨f, strL "bad DS", l⟩, ts)
      | some dt =>
        let p := tailStrings f (strL "bad DS") ts []
        (p.1.map (fun s =>
          ⟨h, .DS (toUint16 keytag) (toUint8 alg) (toUint8 dt) s⟩), p.2)

/-- The accumulation loop of `setTXT`: both `_STRING` and `_BLANK` token
texts are appended until `_NEWLINE` or `_EOF`. -/
def txtTail (f : List Char) : List lex → List Char →
    Except ParseErr (List Char) × List lex
  | [], acc => (.ok acc, [])   -- closed channel: the zero lex has value _EOF
  | l :: rest, acc =>
    if l.value = vNEWLINE ∨ l.value = vEOF then (.ok acc, rest)
    else if l.value = vSTRING ∨ l.value = vBLANK then txtTail f rest (acc ++ l.token)
    else (.error ⟨f, strL "bad TXT", l⟩, rest)

/-- `setTXT` from `dns.go`. -/
def setTXT (h : RR_Header) (ts : List lex) (f : List Char) :
    Except ParseErr RRm × List lex :=
  let p := txtTail f ts []
  (p.1.map (fun s => ⟨h, .TXT s⟩), p.2)

/-- `slurpRemainder` from `dns.go`: after a fixed-arity reader, accept an
optional `_BLANK` followed by `_NEWLINE`/`_EOF`. -/
def slurpRemainder (ts : List lex) (f : List Char) :
    Option ParseErr × List lex :=
  let (l, ts) := rdNext ts
  if l.value = vBLANK then
    let (l, ts) := rdNext ts
    if l.value ≠ vNEWLINE ∧ l.value ≠ vEOF then
      (some ⟨f, strL "garbage after rdata", l⟩, ts)
    else (none, ts)
  else if l.value = vNEWLINE then (none, ts)
  else if l.value = vEOF then (none, ts)
  else (some ⟨f, strL "garbage after directly rdata", l⟩, ts)

/-- The `Slurp` block of `setRR`: after a fixed-arity reader, run
`slurpRemainder` and fail on trailing garbage. -/
def slurpAfter (p : Except ParseErr RRm × List lex) (f : List Char) :
    Except ParseErr RRm × List lex :=
  match p.1 with
  | .error e => (.error e, p.2)
  | .ok r =>
    match (slurpRemainder p.2 f).1 with
    | some se => (.error se, (slurpRemainder p.2 f).2)
    | none => (.ok r, (slurpRemainder p.2 f).2)

/-- `setRR` from `dns.go`: dispatch on the header RR type; fixed-arity
readers are followed by `slurpRemainder`, variable-tail readers return
directly, unknown types yield the "Unknown RR type" error with the zero
lex that the caller later substitutes. -/
def setRR (h : RR_Header) (ts : List lex) (o f : List Char) :
    Except ParseErr RRm × List lex :=
  if h.Rrtype = TypeA then slurpAfter (setA h ts f) f
  else if h.Rrtype = TypeAAAA then slurpAfter (setAAAA h ts f) f
  else if h.Rrtype = TypeNS then slurpAfter (setNS h ts o f) f
  else if h.Rrtype = TypeMX then slurpAfter (setMX h ts o f) f
  else if h.Rrtype = TypeCNAME then slurpAfter (setCNAME h ts o f) f
  else if h.Rrtype = TypeSOA then slurpAfter (setSOA h ts o f) f
  else if h.Rrtype = TypeSSHFP then slurpAfter (setSSHFP h ts f) f
  else if h.Rrtype = TypeDNSKEY then setDNSKEY h ts f
  else if h.Rrtype = TypeRRSIG then setRRSIG h ts o f
  else if h.Rrtype = TypeNSEC then setNSEC h ts o f
  else if h.Rrtype = TypeNSEC3 then setNSEC3 h ts o f
  else if h.Rrtype = TypeDS then setDS h ts f
  else if h.Rrtype = TypeTXT then setTXT h ts f
  else (.error ⟨f, strL "Unknown RR type", {}⟩, ts)

/-! ## Token-consumption bounds for the readers (used for termination of the
parser loop) -/

/-- The remainder returned by `tailStrings` is never longer than its input. -/
theorem tailStrings_len (f msg : List Char) (ts : List lex) (acc : List Char) :
    (tailStrings f msg ts acc).2.length ≤ ts.length := by
  induction ts generalizing acc with
  | nil => simp [tailStrings]
  | cons t rest ih =>
    unfold tailStrings
    repeat' split
    all_goals first
      | exact le_trans (ih _) (by simp)
      | simp

/-- The remainder returned by `bitmapTail` is never longer than its input. -/
theorem bitmapTail_len (f m1 m2 : List Char) (ts : List lex) (acc : List Nat) :
    (bitmapTail f m1 m2 ts acc).2.length ≤ ts.length := by
  induction ts generalizing acc with
  | nil => simp [bitmapTail]
  | cons t rest ih =>
    unfold bitmapTail
    repeat' split
    all_goals first
      | exact le_trans (ih _) (by simp)
      | simp

/-- The remainder returned by `txtTail` is never longer than its input. -/
theorem txtTail_len (f : List Char) (ts : List lex) (acc : List Char) :
    (txtTail f ts acc).2.length ≤ ts.length := by
  induction ts generalizing acc with
  | nil => simp [txtTail]
  | cons t rest ih =>
    unfold txtTail
    repeat' split
    all_goals first
      | exact le_trans (ih _) (by simp)
      | simp

/-- The remainder returned by `slurpRemainder` is never longer than its
input. -/
theorem slurpRemainder_len (ts : List lex) (f : List Char) :
    (slurpRemainder ts f).2.length ≤ ts.length := by
  simp only [slurpRemainder, rdNext]
  repeat' split
  all_goals simp [List.length_tail]
  all_goals omega

/-- The remainder returned by `setA` is never longer than its input. -/
theorem setA_len (h : RR_Header) (ts : List lex) (f : List Char) :
    (setA h ts f).2.length ≤ ts.length := by
  simp only [setA, rdNext]
  repeat' split
  all_goals simp [List.length_tail]

/-- The remainder returned by `setAAAA` is never longer than its input. -/
theorem setAAAA_len (h : RR_Header) (ts : List lex) (f : List Char) :
    (setAAAA h ts f).2.length ≤ ts.length := by
  simp only [setAAAA, rdNext]
  repeat' split
  all_goals simp [List.length_tail]

/-- The remainder returned by `setNS` is never longer than its input. -/
theorem setNS_len (h : RR_Header) (ts : List lex) (o f : List Char) :
    (setNS h ts o f).2.length ≤ ts.length := by
  simp only [setNS, rdNext]
  repeat' split
  all_goals simp [List.length_tail]

/-- The remainder returned by `setMX` is never longer than its input. -/
theorem setMX_len (h : RR_Header) (ts : List lex) (o f : List Char) :
    (setMX h ts o f).2.length ≤ ts.length := by
  simp only [setMX, rdNext]
  repeat' split
  all_goals simp [List.length_tail]
  all_goals omega

/-- The remainder returned by `setCNAME` is never longer than its input. -/
theorem setCNAME_len (h : RR_Header) (ts : List lex) (o f : List Char) :
    (setCNAME h ts o f).2.length ≤ ts.length := by
  simp only [setCNAME, rdNext]
  repeat' split
  all_goals simp [List.length_tail]

/-- The remainder returned by `setSOA` is never longer than its input. -/
theorem setSOA_len (h : RR_Header) (ts : List lex) (o f : List Char) :
    (setSOA h ts o f).2.length ≤ ts.length := by
  simp only [setSOA, rdNext]
  repeat' split
  all_goals simp [List.length_tail]
  all_goals omega

/-- The remainder returned by `setSSHFP` is never longer than its input. -/
theorem setSSHFP_len (h : RR_Header) (ts : List lex) (f : List Char) :
    (setSSHFP h ts f).2.length ≤ ts.length := by
  simp only [setSSHFP, rdNext]
  repeat' split
  all_goals simp [List.length_tail]
  all_goals omega

/-- The remainder returned by `setDNSKEY` is never longer than its input. -/
theorem setDNSKEY_len (h : RR_Header) (ts : List lex) (f : List Char) :
    (setDNSKEY h ts f).2.length ≤ ts.length := by
  simp only [setDNSKEY, rdNext]
  repeat' split
  all_goals first
    | (simp [List.length_tail] <;> omega)
    | (exact le_trans (tailStrings_len _ _ _ _) (by simp [List.length_tail] <;> omega))

/-- The remainder returned by `setRRSIG` is never longer than its input. -/
theorem setRRSIG_len (h : RR_Header) (ts : List lex) (o f : List Char) :
    (setRRSIG h ts o f).2.length ≤ ts.length := by
  simp only [setRRSIG, rdNext]
  repeat' split
  all_goals first
    | (simp [List.length_tail] <;> omega)
    | (exact le_trans (tailStrings_len _ _ _ _) (by simp [List.length_tail] <;> omega))

/-- The remainder returned by `setNSEC` is never longer than its input. -/
theorem setNSEC_len (h : RR_Header) (ts : List lex) (o f : List Char) :
    (setNSEC h ts o f).2.length ≤ ts.length := by
  simp only [setNSEC, rdNext]
  repeat' split
  all_goals first
    | (simp [List.length_tail] <;> omega)
    | (exact le_trans (bitmapTail_len _ _ _ _ _) (by simp [List.length_tail] <;> omega))

/-- The remainder returned by `setNSEC3` is never longer than its input. -/
theorem setNSEC3_len (h : RR_Header) (ts : List lex) (o f : List Char) :
    (setNSEC3 h ts o f).2.length ≤ ts.length := by
  simp only [setNSEC3, rdNext]
  repeat' split
  all_goals first
    | (simp [List.length_tail] <;> omega)
    | (exact le_trans (bitmapTail_len _ _ _ _ _) (by simp [List.length_tail] <;> omega))

/-- The remainder returned by `setDS` is never longer than its input. -/
theorem setDS_len (h : RR_Header) (ts : List lex) (f : List Char) :
    (setDS h ts f).2.length ≤ ts.length := by
  simp only [setDS, rdNext]
  repeat' split
  all_goals first
    | (simp [List.length_tail] <;> omega)
    | (exact le_trans (tailStrings_len _ _ _ _) (by simp [List.length_tail] <;> omega))

/-- The remainder returned by `setTXT` is never longer than its input. -/
theorem setTXT_len (h : RR_Header) (ts : List lex) (f : List Char) :
    (setTXT h ts f).2.length ≤ ts.length := by
  simp only [setTXT]
  exact txtTail_len _ _ _

/-- The remainder returned by `slurpAfter` is never longer than the
remainder it is given. -/
theorem slurpAfter_len (p : Except ParseErr RRm × List lex) (f : List Char) :
    (slurpAfter p f).2.length ≤ p.2.length := by
  unfold slurpAfter
  repeat' split
  all_goals first
    | exact le_refl _
    | exact slurpRemainder_len _ _

/-- The remainder returned by `setRR` is never longer than its input. -/
theorem setRR_len (h : RR_Header) (ts : List lex) (o f : List Char) :
    (setRR h ts o f).2.length ≤ ts.length := by
  unfold setRR
  by_cases h0 : h.Rrtype = TypeA
  · rw [if_pos h0]
    exact le_trans (slurpAfter_len _ _) (setA_len h ts f)
  rw [if_neg h0]
  by_cases h1 : h.Rrtype = TypeAAAA
  · rw [if_pos h1]
    exact le_trans (slurpAfter_len _ _) (setAAAA_len h ts f)
  rw [if_neg h1]
  by_cases h2 : h.Rrtype = TypeNS
  · rw [if_pos h2]
    exact le_trans (slurpAfter_len _ _) (setNS_len h ts o f)
  rw [if_neg h2]
  by_cases h3 : h.Rrtype = TypeMX
  · rw [if_pos h3]
    exact le_trans (slurpAfter_len _ _) (setMX_len h ts o f)
  rw [if_neg h3]
  by_cases h4 : h.Rrtype = TypeCNAME
  · rw [if_pos h4]
    exact le_trans (slurpAfter_len _ _) (setCNAME_len h ts o f)
  rw [if_neg h4]
  by_cases h5 : h.Rrtype = TypeSOA
  · rw [if_pos h5]
    exact le_trans (slurpAfter_len _ _) (setSOA_len h ts o f)
  rw [if_neg h5]
  by_cases h6 : h.Rrtype = TypeSSHFP
  · rw [if_pos h6]
    exact le_trans (slurpAfter_len _ _) (setSSHFP_len h ts f)
  rw [if_neg h6]
  by_cases h7 : h.Rrtype = TypeDNSKEY
  · rw [if_pos h7]
    exact setDNSKEY_len h ts f
  rw [if_neg h7]
  by_cases h8 : h.Rrtype = TypeRRSIG
  · rw [if_pos h8]
    exact setRRSIG_len h ts o f
  rw [if_neg h8]
  by_cases h9 : h.Rrtype = TypeNSEC
  · rw [if_pos h9]
    exact setNSEC_len h ts o f
  rw [if_neg h9]
  by_cases h10 : h.Rrtype = TypeNSEC3
  · rw [if_pos h10]
    exact setNSEC3_len h ts o f
  rw [if_neg h10]
  by_cases h11 : h.Rrtype = TypeDS
  · rw [if_pos h11]
    exact setDS_len h ts f
  rw [if_neg h11]
  by_cases h12 : h.Rrtype = TypeTXT
  · rw [if_pos h12]
    exact setTXT_len h ts f
  rw [if_neg h12]

/-! ## The zone parser `parseZone` -/

/-- The parser states of `zscan.go` (the `_EXPECT_*` constants of the same
`iota` block as the token kinds), as an enumeration: `st` is only ever
assigned one of these sixteen values in the source. -/
inductive St where
  | OWNER_DIR
  | OWNER_BL
  | ANY
  | ANY_NOCLASS
  | ANY_NOCLASS_BL
  | ANY_NOTTL
  | ANY_NOTTL_BL
  | RRTYPE
  | RRTYPE_BL
  | RDATA
  | DIRTTL_BL
  | DIRTTL
  | DIRORIGIN_BL
  | DIRORIGIN
  | DIRINCLUDE_BL
  | DIRINCLUDE
deriving DecidableEq, Repr

/-- The action one iteration of the `parseZone` loop performs: emit tokens
and return, emit tokens and continue with updated state, or request a
`$INCLUDE` (whose file handling lives in the loop). -/
inductive PAct where
  | stop (out : List TokenM)
  | cont (out : List TokenM) (st : St) (h : RR_Header) (defttl : Nat)
      (origin : List Char) (rest : List lex)
  | inclReq (tok : lex)
deriving Repr

/-- The body of the `parseZone` loop of `zscan.go` for one token `l`: the
`switch st` statement.  `ts` is the rest of the token channel (consumed
only by the `_EXPECT_RDATA` case, which hands it to `setRR`). -/
def pzStep (f : List Char) (l : lex) (ts : List lex) (st : St) (h : RR_Header)
    (defttl : Nat) (origin : List Char) : PAct :=
  match st with
  | .OWNER_DIR =>
    -- we can also expect a directive, like $TTL or $ORIGIN
    let h := { h with Ttl := defttl, Class := ClassINET }
    if l.value = vNEWLINE then .cont [] .OWNER_DIR h defttl origin ts
    else if l.value = vOWNER then
      let h := { h with Name := l.token }
      if ¬ (IsDomainName l.token).2 then .stop [.err ⟨f, strL "bad owner name", l⟩]
      else
        let h := if ¬ IsFqdn h.Name then { h with Name := h.Name ++ origin } else h
        .cont [] .OWNER_BL h defttl origin ts
    else if l.value = vDIRTTL then .cont [] .DIRTTL_BL h defttl origin ts
    else if l.value = vDIRORIGIN then .cont [] .DIRORIGIN_BL h defttl origin ts
    else if l.value = vDIRINCLUDE then .cont [] .DIRINCLUDE_BL h defttl origin ts
    else .stop [.err ⟨f, strL "Error at the start", l⟩]
  | .DIRINCLUDE_BL =>
    if l.value ≠ vBLANK then
      .stop [.err ⟨f, strL "No blank after $INCLUDE-directive", l⟩]
    else .cont [] .DIRINCLUDE h defttl origin ts
  | .DIRINCLUDE =>
    if l.value ≠ vSTRING then
      .stop [.err ⟨f, strL "Expecting $INCLUDE value, not this...", l⟩]
    else .inclReq l
  | .DIRTTL_BL =>
    if l.value ≠ vBLANK then
      .stop [.err ⟨f, strL "No blank after $TTL-directive", l⟩]
    else .cont [] .DIRTTL h defttl origin ts
  | .DIRTTL =>
    if l.value ≠ vSTRING then
      .stop [.err ⟨f, strL "Expecting $TTL value, not this...", l⟩]
    else
      match stringToTtl l f with
      | .error e => .stop [.err e]
      | .ok ttl => .cont [] .OWNER_DIR h ttl origin ts
  | .DIRORIGIN_BL =>
    if l.value ≠ vBLANK then
      .stop [.err ⟨f, strL "No blank after $ORIGIN-directive", l⟩]
    else .cont [] .DIRORIGIN h defttl origin ts
  | .DIRORIGIN =>
    if l.value ≠ vSTRING then
      .stop [.err ⟨f, strL "Expecting $ORIGIN value, not this...", l⟩]
    else
      -- append old origin if the new one is not a fqdn; note that the
      -- source does not assign `st` here, so the state stays _EXPECT_DIRORIGIN
      let origin := if ¬ IsFqdn l.token then l.token ++ origin else l.token
      .cont [] .DIRORIGIN h defttl origin ts
  | .OWNER_BL =>
    if l.value ≠ vBLANK then .stop [.err ⟨f, strL "No blank after owner", l⟩]
    else .cont [] .ANY h defttl origin ts
  | .ANY =>
    if l.value = vRRTYPE then
      .cont [] .RDATA { h with Rrtype := (Str_rr (toUpperL l.token)).getD 0 }
        defttl origin ts
    else if l.value = vCLASS then
      match Str_class (toUpperL l.token) with
      | none => .stop [.err ⟨f, strL "Unknown class", l⟩]
      | some c => .cont [] .ANY_NOCLASS_BL { h with Class := c } defttl origin ts
    else if l.value = vSTRING then   -- TTL is this case
      match stringToTtl l f with
      | .error e => .stop [.err e]
      | .ok ttl => .cont [] .ANY_NOTTL_BL { h with Ttl := ttl } defttl origin ts
    else .stop [.err ⟨f, strL "Expecting RR type, TTL or class, not this...", l⟩]
  | .ANY_NOCLASS_BL =>
    if l.value ≠ vBLANK then .stop [.err ⟨f, strL "No blank before NOCLASS", l⟩]
    else .cont [] .ANY_NOCLASS h defttl origin ts
  | .ANY_NOTTL_BL =>
    if l.value ≠ vBLANK then .stop [.err ⟨f, strL "No blank before NOTTL", l⟩]
    else .cont [] .ANY_NOTTL h defttl origin ts
  | .ANY_NOTTL =>
    if l.value = vCLASS then
      match Str_class (toUpperL l.token) with
      | none => .stop [.err ⟨f, strL "Unknown class", l⟩]
      | some c => .cont [] .RRTYPE_BL { h with Class := c } defttl origin ts
    else if l.value = vRRTYPE then
      .cont [] .RDATA { h with Rrtype := (Str_rr (toUpperL l.token)).getD 0 }
        defttl origin ts
    else
      -- the switch has no default case: any other token is consumed
      -- silently, with no error and no state change
      .cont [] .ANY_NOTTL h defttl origin ts
  | .ANY_NOCLASS =>
    if l.value = vSTRING then   -- TTL
      match stringToTtl l f with
      | .error e => .stop [.err e]
      | .ok ttl => .cont [] .RRTYPE_BL { h with Ttl := ttl } defttl origin ts
    else if l.value = vRRTYPE then
      .cont [] .RDATA { h with Rrtype := (Str_rr (toUpperL l.token)).getD 0 }
        defttl origin ts
    else .stop [.err ⟨f, strL "Expecting RR type or TTL, not this...", l⟩]
  | .RRTYPE_BL =>
    if l.value ≠ vBLANK then .stop [.err ⟨f, strL "No blank after", l⟩]
    else .cont [] .RRTYPE h defttl origin ts
  | .RRTYPE =>
    if l.value ≠ vRRTYPE then .stop [.err ⟨f, strL "Unknown RR type", l⟩]
    else
      .cont [] .RDATA { h with Rrtype := (Str_rr (toUpperL l.token)).getD 0 }
        defttl origin ts
  | .RDATA =>
    match (setRR h ts origin f).1 with
    | .error e =>
      -- when e.lex is the zero value we have hit an unknown RR type and
      -- the current token is substituted
      let e := if e.lex.token = [] ∧ e.lex.value = 0 then { e with lex := l } else e
      .stop [.err e]
    | .ok r => .cont [.rr r] .OWNER_DIR h defttl origin (setRR h ts origin f).2

/-- In a `cont` action, the remaining channel is never longer than the one
handed to `pzStep`. -/
theorem pzStep_cont_len (f : List Char) (l : lex) (ts : List lex) (st : St)
    (h : RR_Header) (d : Nat) (o : List Char) (out : List TokenM) (st' : St)
    (h' : RR_Header) (d' : Nat) (o' : List Char) (rest : List lex)
    (heq : pzStep f l ts st h d o = .cont out st' h' d' o' rest) :
    rest.length ≤ ts.length := by
  cases st <;> simp only [pzStep] at heq <;> repeat' split at heq
  all_goals cases heq
  all_goals try exact le_refl _
  all_goals exact setRR_len h ts o f

/-- The file system seen by `$INCLUDE` (`os.Open`): a map from path to file
contents, `none` meaning the open fails. -/
def Fs := List Char → Option (List Char)

/-- The error text "Failed to open `path'" of the `$INCLUDE` case (the
quote characters are written by code point). -/
def failedOpenMsg (tok : List Char) : List Char :=
  strL "Failed to open " ++ [Char.ofNat 96] ++ tok ++ [Char.ofNat 39]

/-- The body of `parseZone` from `zscan.go`: the `for l := range c` loop.
A lexer-flagged error is emitted first; otherwise the `switch st` body is
`pzStep` (`incl` is the source's `include` nesting counter).  A `$INCLUDE` opens the file, enforces the depth cap of 7, parses
the included file into the same output stream with fresh state (the
incl's `parseZone` call), and then continues the outer loop in state
`_EXPECT_OWNER_DIR`. -/
def parseZoneLoop (fs : Fs) (f : List Char) (incl : Nat) (ts : List lex)
    (st : St) (h : RR_Header) (defttl : Nat) (origin : List Char) :
    List TokenM :=
  match ts with
  | [] => []
  | l :: ts' =>
    if l.err ≠ [] then [.err ⟨f, l.err, l⟩]
    else
      match hstep : pzStep f l ts' st h defttl origin with
      | .stop out => out
      | .cont out st' h' defttl' origin' rest =>
        out ++ parseZoneLoop fs f incl rest st' h' defttl' origin'
      | .inclReq ltok =>
        match fs ltok.token with
        | none => [.err ⟨f, failedOpenMsg ltok.token, ltok⟩]
        | some content =>
          if incl + 1 > 7 then
            [.err ⟨f, strL "Too deeply nested $INCLUDE", ltok⟩]
          else
            parseZoneLoop fs ltok.token (incl + 1) (zlexer content)
              .OWNER_DIR {} DefaultTtl ['.'] ++
            parseZoneLoop fs f incl ts' .OWNER_DIR h defttl origin
  termination_by (7 - incl, ts.length)
  decreasing_by
  · apply Prod.Lex.right
    have := pzStep_cont_len f l ts' st h defttl origin out st' h' defttl' origin' rest hstep
    simp
    omega
  · apply Prod.Lex.left
    omega
  · apply Prod.Lex.right
    simp

/-- `parseZone`/`ParseZone` from `zscan.go`: lex the input and run the
parser loop with the initial state (`st = _EXPECT_OWNER_DIR`, zero header,
`defttl = DefaultTtl`, `origin = "."`, include depth 0).  The returned list
is the complete stream sent on the output channel. -/
def parseZone (fs : Fs) (cs : List Char) (file : List Char) : List TokenM :=
  parseZoneLoop fs file 0 (zlexer cs) .OWNER_DIR {} DefaultTtl ['.']

/-- `ReadRR` from `zscan.go`: take the first emission of `ParseZone`; an
error token yields `(nil, error)`, an RR yields `(rr, nil)`, and an empty
stream (closed channel) yields the zero `Token`, i.e. `(nil, nil)`. -/
def ReadRR (fs : Fs) (cs f : List Char) : Option RRm × Option ParseErr :=
  match (parseZone fs cs f).head? with
  | none => (none, none)
  | some (.err e) => (none, some e)
  | some (.rr r) => (some r, none)

/-- `NewRR` from `zscan.go`: it indexes `s[len(s)-1]` unconditionally, so
the empty string panics (modelled as `none`); otherwise a trailing newline
is appended when missing and `ReadRR` is called. -/
def NewRR (fs : Fs) (s : List Char) : Option (Option RRm × Option ParseErr) :=
  match s with
  | [] => none   -- s[len(s)-1] is out of bounds: panic
  | _ =>
    some (if s.getLastD ' ' ≠ '\n' then ReadRR fs (s ++ ['\n']) []
          else ReadRR fs s [])

/-- `RRset.Push` from `dns.go`: append unconditionally to an empty set;
otherwise reject when the name or the class differs from the first
element's (the TTL comparison is commented out in the source), and append
otherwise.  The returned pair is (reported bool, updated slice). -/
def Push : List RRm → RRm → Bool × List RRm
  | [], r => (true, [r])
  | s@(first :: _), r =>
    if first.Hdr.Name ≠ r.Hdr.Name then (false, s)
    else if first.Hdr.Class ≠ r.Hdr.Class then (false, s)
    else (true, s ++ [r])

/-- `RRset.Pop` from `dns.go`: remove and return the last element. -/
def Pop (s : List RRm) : Option RRm × List RRm :=
  match s with
  | [] => (none, [])
  | _ => (s.getLast?, s.dropLast)

/-- Unfolding of `parseZoneLoop` on the empty channel. -/
theorem parseZoneLoop_nil (fs : Fs) (f : List Char) (incl : Nat) (st : St)
    (h : RR_Header) (defttl : Nat) (origin : List Char) :
    parseZoneLoop fs f incl [] st h defttl origin = [] := by
  rw [parseZoneLoop]

/-- Unfolding of `parseZoneLoop` on one token, with the dependent match
replaced by a plain one. -/
theorem parseZoneLoop_cons (fs : Fs) (f : List Char) (incl : Nat) (l : lex)
    (ts' : List lex) (st : St) (h : RR_Header) (defttl : Nat)
    (origin : List Char) :
    parseZoneLoop fs f incl (l :: ts') st h defttl origin =
      if l.err ≠ [] then [.err ⟨f, l.err, l⟩]
      else
        match pzStep f l ts' st h defttl origin with
        | .stop out => out
        | .cont out st' h' defttl' origin' rest =>
          out ++ parseZoneLoop fs f incl rest st' h' defttl' origin'
        | .inclReq ltok =>
          match fs ltok.token with
          | none => [.err ⟨f, failedOpenMsg ltok.token, ltok⟩]
          | some content =>
            if incl + 1 > 7 then
              [.err ⟨f, strL "Too deeply nested $INCLUDE", ltok⟩]
            else
              parseZoneLoop fs ltok.token (incl + 1) (zlexer content)
                .OWNER_DIR {} DefaultTtl ['.'] ++
              parseZoneLoop fs f incl ts' .OWNER_DIR h defttl origin := by
  rw [parseZoneLoop]
  cases hstep : pzStep f l ts' st h defttl origin <;> simp [hstep]

/-! ## A fuel-indexed twin of the parser loop

`parseZoneLoop` is defined by well-founded recursion, which the kernel
cannot evaluate; `pzRunF` is the same computation indexed by structural
fuel, returning `none` when the fuel runs out.  `pzRunF_sound` transfers
any `some` result to `parseZoneLoop`, so concrete runs can be established
by `decide` on `pzRunF`. -/

/-- Fuel-indexed version of `parseZoneLoop`. -/
def pzRunF (fs : Fs) : Nat → List Char → Nat → List lex → St → RR_Header →
    Nat → List Char → Option (List TokenM)
  | 0, _, _, _, _, _, _, _ => none
  | fuel + 1, f, incl, ts, st, h, defttl, origin =>
    match ts with
    | [] => some []
    | l :: ts' =>
      if l.err ≠ [] then some [.err ⟨f, l.err, l⟩]
      else
        match pzStep f l ts' st h defttl origin with
        | .stop out => some out
        | .cont out st' h' defttl' origin' rest =>
          (pzRunF fs fuel f incl rest st' h' defttl' origin').map (out ++ ·)
        | .inclReq ltok =>
          match fs ltok.token with
          | none => some [.err ⟨f, failedOpenMsg ltok.token, ltok⟩]
          | some content =>
            if incl + 1 > 7 then
              some [.err ⟨f, strL "Too deeply nested $INCLUDE", ltok⟩]
            else
              match pzRunF fs fuel ltok.token (incl + 1) (zlexer content)
                  .OWNER_DIR {} DefaultTtl ['.'],
                pzRunF fs fuel f incl ts' .OWNER_DIR h defttl origin with
              | some L1, some L2 => some (L1 ++ L2)
              | _, _ => none

/-- Adequacy of the fuel-indexed runner: a `some` result of `pzRunF` is the
value of `parseZoneLoop`. -/
theorem pzRunF_sound (fs : Fs) (fuel : Nat) :
    ∀ (f : List Char) (incl : Nat) (ts : List lex) (st : St) (h : RR_Header)
      (defttl : Nat) (origin : List Char) (L : List TokenM),
    pzRunF fs fuel f incl ts st h defttl origin = some L →
    parseZoneLoop fs f incl ts st h defttl origin = L := by
  induction fuel with
  | zero => intro f incl ts st h defttl origin L hL; simp [pzRunF] at hL
  | succ fuel ih =>
    intro f incl ts st h defttl origin L hL
    match ts with
    | [] =>
      simp [pzRunF] at hL
      rw [parseZoneLoop_nil, ← hL]
    | l :: ts' =>
      rw [parseZoneLoop_cons]
      simp only [pzRunF] at hL
      by_cases herr : l.err ≠ []
      · rw [if_pos herr] at hL ⊢
        exact Option.some_inj.mp hL
      · rw [if_neg herr] at hL ⊢
        match hstep : pzStep f l ts' st h defttl origin with
        | .stop out =>
          rw [hstep] at hL
          dsimp only at hL ⊢
          exact Option.some_inj.mp hL
        | .cont out st' h' defttl' origin' rest =>
          rw [hstep] at hL
          dsimp only at hL ⊢
          simp only [Option.map_eq_some'] at hL
          obtain ⟨Lp, hLp, hLeq⟩ := hL
          rw [ih _ _ _ _ _ _ _ _ hLp]
          exact hLeq
        | .inclReq ltok =>
          rw [hstep] at hL
          dsimp only at hL ⊢
          match hfs : fs ltok.token with
          | none =>
            rw [hfs] at hL
            dsimp only at hL ⊢
            exact Option.some_inj.mp hL
          | some content =>
            rw [hfs] at hL
            dsimp only at hL ⊢
            by_cases hdeep : incl + 1 > 7
            · rw [if_pos hdeep] at hL ⊢
              exact Option.some_inj.mp hL
            · rw [if_neg hdeep] at hL ⊢
              match h1 : pzRunF fs fuel ltok.token (incl + 1) (zlexer content)
                  .OWNER_DIR {} DefaultTtl ['.'],
                h2 : pzRunF fs fuel f incl ts' .OWNER_DIR h defttl origin with
              | some L1, some L2 =>
                rw [h1, h2] at hL
                dsimp only at hL
                rw [ih _ _ _ _ _ _ _ _ h1, ih _ _ _ _ _ _ _ _ h2]
                exact Option.some_inj.mp hL
              | none, _ => rw [h1] at hL; simp at hL
              | some L1, none => rw [h1, h2] at hL; simp at hL

/-- Fuel-indexed version of `parseZone`. -/
def parseZoneF (fs : Fs) (fuel : Nat) (cs file : List Char) :
    Option (List TokenM) :=
  pzRunF fs fuel file 0 (zlexer cs) .OWNER_DIR {} DefaultTtl ['.']

/-- Adequacy of `parseZoneF` with respect to `parseZone`. -/
theorem parseZoneF_sound (fs : Fs) (fuel : Nat) (cs file : List Char)
    (L : List TokenM) (hL : parseZoneF fs fuel cs file = some L) :
    parseZone fs cs file = L :=
  pzRunF_sound fs fuel file 0 (zlexer cs) .OWNER_DIR {} DefaultTtl ['.'] L hL

/-! ## Projections and fixtures used by the claim theorems -/

/-- A file system in which every `os.Open` fails. -/
def emptyFs : Fs := fun _ => none

/-- The RRs of an emission stream. -/
def rrsOf (out : List TokenM) : List RRm :=
  out.filterMap (fun t => match t with | .rr r => some r | .err _ => none)

/-- The error texts of an emission stream. -/
def errTextsOf (out : List TokenM) : List (List Char) :=
  out.filterMap (fun t => match t with | .rr _ => none | .err e => some e.errText)

/-- Whether an emitted token is an error. -/
def isErrTok : TokenM → Bool
  | .rr _ => false
  | .err _ => true

/-! ## The fully-qualified-name invariant (claim C1) -/

/-- The parser states in which `h.Name` has already been set from an owner
token (every path from `_EXPECT_OWNER_DIR` into these states goes through
the `_OWNER` case). -/
def nameSt : St → Bool
  | .OWNER_BL | .ANY | .ANY_NOCLASS | .ANY_NOCLASS_BL | .ANY_NOTTL
  | .ANY_NOTTL_BL | .RRTYPE | .RRTYPE_BL | .RDATA => true
  | _ => false

/-- The header invariant of the parser loop: in the states after an owner
token, the header name is fully qualified. -/
def hdrInv (st : St) (h : RR_Header) : Prop :=
  nameSt st = true → IsFqdn h.Name = true

/-- Appending a fully qualified suffix yields a fully qualified name. -/
theorem IsFqdn_append (a b : List Char) (hb : IsFqdn b = true) :
    IsFqdn (a ++ b) = true := by
  match b with
  | [] => simp [IsFqdn] at hb
  | c :: bs =>
    have hne : a ++ c :: bs ≠ [] := by simp
    match hab : a ++ c :: bs with
    | [] => exact absurd hab hne
    | d :: ds =>
      simp only [IsFqdn] at hb ⊢
      rw [← hab]
      rw [List.getLastD_eq_getLast?, List.getLast?_append_of_ne_nil a (by simp)]
      rw [List.getLastD_eq_getLast?] at hb
      exact hb

set_option maxHeartbeats 1000000 in
/-- `setA` leaves the header untouched. -/
theorem setA_hdr (h : RR_Header) (ts : List lex) (f : List Char) (r : RRm)
    (heq : (setA h ts f).1 = .ok r) : r.Hdr = h := by
  simp only [setA, rdNext, Except.map] at heq
  repeat' split at heq
  all_goals try dsimp only at heq
  all_goals first
    | exact Except.noConfusion heq
    | (injection heq with hrr; rw [← hrr])

set_option maxHeartbeats 1000000 in
/-- `setAAAA` leaves the header untouched. -/
theorem setAAAA_hdr (h : RR_Header) (ts : List lex) (f : List Char) (r : RRm)
    (heq : (setAAAA h ts f).1 = .ok r) : r.Hdr = h := by
  simp only [setAAAA, rdNext, Except.map] at heq
  repeat' split at heq
  all_goals try dsimp only at heq
  all_goals first
    | exact Except.noConfusion heq
    | (injection heq with hrr; rw [← hrr])

set_option maxHeartbeats 1000000 in
/-- `setNS` leaves the header untouched. -/
theorem setNS_hdr (h : RR_Header) (ts : List lex) (o f : List Char) (r : RRm)
    (heq : (setNS h ts o f).1 = .ok r) : r.Hdr = h := by
  simp only [setNS, rdNext, Except.map] at heq
  repeat' split at heq
  all_goals try dsimp only at heq
  all_goals first
    | exact Except.noConfusion heq
    | (injection heq with hrr; rw [← hrr])

set_option maxHeartbeats 1000000 in
/-- `setMX` leaves the header untouched. -/
theorem setMX_hdr (h : RR_Header) (ts : List lex) (o f : List Char) (r : RRm)
    (heq : (setMX h ts o f).1 = .ok r) : r.Hdr = h := by
  simp only [setMX, rdNext, Except.map] at heq
  repeat' split at heq
  all_goals try dsimp only at heq
  all_goals first
    | exact Except.noConfusion heq
    | (injection heq with hrr; rw [← hrr])

set_option maxHeartbeats 1000000 in
/-- `setCNAME` leaves the header untouched. -/
theorem setCNAME_hdr (h : RR_Header) (ts : List lex) (o f : List Char) (r : RRm)
    (heq : (setCNAME h ts o f).1 = .ok r) : r.Hdr = h := by
  simp only [setCNAME, rdNext, Except.map] at heq
  repeat' split at heq
  all_goals try dsimp only at heq
  all_goals first
    | exact Except.noConfusion heq
    | (injection heq with hrr; rw [← hrr])

set_option maxHeartbeats 1000000 in
/-- `setSOA` leaves the header untouched. -/
theorem setSOA_hdr (h : RR_Header) (ts : List lex) (o f : List Char) (r : RRm)
    (heq : (setSOA h ts o f).1 = .ok r) : r.Hdr = h := by
  simp only [setSOA, rdNext, Except.map] at heq
  repeat' split at heq
  all_goals try dsimp only at heq
  all_goals first
    | exact Except.noConfusion heq
    | (injection heq with hrr; rw [← hrr])

set_option maxHeartbeats 1000000 in
/-- `setSSHFP` leaves the header untouched. -/
theorem setSSHFP_hdr (h : RR_Header) (ts : List lex) (f : List Char) (r : RRm)
    (heq : (setSSHFP h ts f).1 = .ok r) : r.Hdr = h := by
  simp only [setSSHFP, rdNext, Except.map] at heq
  repeat' split at heq
  all_goals try dsimp only at heq
  all_goals first
    | exact Except.noConfusion heq
    | (injection heq with hrr; rw [← hrr])

set_option maxHeartbeats 1000000 in
/-- `setDNSKEY` leaves the header untouched. -/
theorem setDNSKEY_hdr (h : RR_Header) (ts : List lex) (f : List Char) (r : RRm)
    (heq : (setDNSKEY h ts f).1 = .ok r) : r.Hdr = h := by
  simp only [setDNSKEY, rdNext, Except.map] at heq
  repeat' split at heq
  all_goals try dsimp only at heq
  all_goals first
    | exact Except.noConfusion heq
    | (injection heq with hrr; rw [← hrr])

set_option maxHeartbeats 1000000 in
/-- `setRRSIG` leaves the header untouched. -/
theorem setRRSIG_hdr (h : RR_Header) (ts : List lex) (o f : List Char) (r : RRm)
    (heq : (setRRSIG h ts o f).1 = .ok r) : r.Hdr = h := by
  simp only [setRRSIG, rdNext, Except.map] at heq
  repeat' split at heq
  all_goals try dsimp only at heq
  all_goals first
    | exact Except.noConfusion heq
    | (injection heq with hrr; rw [← hrr])

set_option maxHeartbeats 1000000 in
/-- `setNSEC` leaves the header untouched. -/
theorem setNSEC_hdr (h : RR_Header) (ts : List lex) (o f : List Char) (r : RRm)
    (heq : (setNSEC h ts o f).1 = .ok r) : r.Hdr = h := by
  simp only [setNSEC, rdNext, Except.map] at heq
  repeat' split at heq
  all_goals try dsimp only at heq
  all_goals first
    | exact Except.noConfusion heq
    | (injection heq with hrr; rw [← hrr])

set_option maxHeartbeats 1000000 in
/-- `setNSEC3` leaves the header untouched. -/
theorem setNSEC3_hdr (h : RR_Header) (ts : List lex) (o f : List Char) (r : RRm)
    (heq : (setNSEC3 h ts o f).1 = .ok r) : r.Hdr = h := by
  simp only [setNSEC3, rdNext, Except.map] at heq
  repeat' split at heq
  all_goals try dsimp only at heq
  all_goals first
    | exact Except.noConfusion heq
    | (injection heq with hrr; rw [← hrr])

set_option maxHeartbeats 1000000 in
/-- `setDS` leaves the header untouched. -/
theorem setDS_hdr (h : RR_Header) (ts : List lex) (f : List Char) (r : RRm)
    (heq : (setDS h ts f).1 = .ok r) : r.Hdr = h := by
  simp only [setDS, rdNext, Except.map] at heq
  repeat' split at heq
  all_goals try dsimp only at heq
  all_goals first
    | exact Except.noConfusion heq
    | (injection heq with hrr; rw [← hrr])

set_option maxHeartbeats 1000000 in
/-- `setTXT` leaves the header untouched. -/
theorem setTXT_hdr (h : RR_Header) (ts : List lex) (f : List Char) (r : RRm)
    (heq : (setTXT h ts f).1 = .ok r) : r.Hdr = h := by
  simp only [setTXT, rdNext, Except.map] at heq
  repeat' split at heq
  all_goals try dsimp only at heq
  all_goals first
    | exact Except.noConfusion heq
    | (injection heq with hrr; rw [← hrr])

/-- `slurpAfter` passes RRs through unchanged. -/
theorem slurpAfter_ok (p : Except ParseErr RRm × List lex) (f : List Char)
    (r : RRm) (heq : (slurpAfter p f).1 = .ok r) : p.1 = .ok r := by
  unfold slurpAfter at heq
  repeat' split at heq
  all_goals simp_all

/-- `setRR` returns an RR whose header is exactly the one it was given. -/
theorem setRR_hdr (h : RR_Header) (ts : List lex) (o f : List Char) (r : RRm)
    (heq : (setRR h ts o f).1 = .ok r) : r.Hdr = h := by
  unfold setRR at heq
  by_cases h0 : h.Rrtype = TypeA
  · rw [if_pos h0] at heq
    exact setA_hdr h _ f r (slurpAfter_ok _ f r heq)
  rw [if_neg h0] at heq
  by_cases h1 : h.Rrtype = TypeAAAA
  · rw [if_pos h1] at heq
    exact setAAAA_hdr h _ f r (slurpAfter_ok _ f r heq)
  rw [if_neg h1] at heq
  by_cases h2 : h.Rrtype = TypeNS
  · rw [if_pos h2] at heq
    exact setNS_hdr h _ o f r (slurpAfter_ok _ f r heq)
  rw [if_neg h2] at heq
  by_cases h3 : h.Rrtype = TypeMX
  · rw [if_pos h3] at heq
    exact setMX_hdr h _ o f r (slurpAfter_ok _ f r heq)
  rw [if_neg h3] at heq
  by_cases h4 : h.Rrtype = TypeCNAME
  · rw [if_pos h4] at heq
    exact setCNAME_hdr h _ o f r (slurpAfter_ok _ f r heq)
  rw [if_neg h4] at heq
  by_cases h5 : h.Rrtype = TypeSOA
  · rw [if_pos h5] at heq
    exact setSOA_hdr h _ o f r (slurpAfter_ok _ f r heq)
  rw [if_neg h5] at heq
  by_cases h6 : h.Rrtype = TypeSSHFP
  · rw [if_pos h6] at heq
    exact setSSHFP_hdr h _ f r (slurpAfter_ok _ f r heq)
  rw [if_neg h6] at heq
  by_cases h7 : h.Rrtype = TypeDNSKEY
  · rw [if_pos h7] at heq
    exact setDNSKEY_hdr h _ f r heq
  rw [if_neg h7] at heq
  by_cases h8 : h.Rrtype = TypeRRSIG
  · rw [if_pos h8] at heq
    exact setRRSIG_hdr h _ o f r heq
  rw [if_neg h8] at heq
  by_cases h9 : h.Rrtype = TypeNSEC
  · rw [if_pos h9] at heq
    exact setNSEC_hdr h _ o f r heq
  rw [if_neg h9] at heq
  by_cases h10 : h.Rrtype = TypeNSEC3
  · rw [if_pos h10] at heq
    exact setNSEC3_hdr h _ o f r heq
  rw [if_neg h10] at heq
  by_cases h11 : h.Rrtype = TypeDS
  · rw [if_pos h11] at heq
    exact setDS_hdr h _ f r heq
  rw [if_neg h11] at heq
  by_cases h12 : h.Rrtype = TypeTXT
  · rw [if_pos h12] at heq
    exact setTXT_hdr h _ f r heq
  rw [if_neg h12] at heq
  simp at heq

set_option maxHeartbeats 1000000 in
/-- One parser step preserves the origin and header invariants, and any RR
it emits has a fully qualified name. -/
theorem pzStep_fqdn (f : List Char) (l : lex) (ts : List lex) (st : St)
    (h : RR_Header) (defttl : Nat) (origin : List Char) (out : List TokenM)
    (st' : St) (h' : RR_Header) (defttl' : Nat) (origin' : List Char)
    (rest : List lex) (ho : IsFqdn origin = true) (hh : hdrInv st h)
    (heq : pzStep f l ts st h defttl origin = .cont out st' h' defttl' origin' rest) :
    (∀ r, TokenM.rr r ∈ out → IsFqdn r.Hdr.Name = true) ∧
      IsFqdn origin' = true ∧ hdrInv st' h' := by
  cases st <;> simp only [pzStep] at heq <;> repeat' split at heq
  all_goals cases heq
  all_goals refine ⟨?_, ?_, ?_⟩
  all_goals first
    | (simp; done)
    | exact ho
    | (intro hq; simp [nameSt] at hq; done)
    | (intro hq; exact hh rfl)
    | (intro hq; simpa using hh rfl)
    | (intro hq; simpa using IsFqdn_append l.token origin ho)
    | (intro hq; simpa using of_not_not (by assumption))
    | simpa using IsFqdn_append l.token origin ho
    | simpa using of_not_not (by assumption)
    | (intro r hr
       simp only [List.mem_singleton] at hr
       cases hr
       rw [setRR_hdr h ts origin f _ (by assumption)]
       exact hh rfl)

set_option maxHeartbeats 1000000 in
/-- A stopping parser step emits only errors, never an RR. -/
theorem pzStep_stop (f : List Char) (l : lex) (ts : List lex) (st : St)
    (h : RR_Header) (defttl : Nat) (origin : List Char) (out : List TokenM)
    (heq : pzStep f l ts st h defttl origin = .stop out) :
    ∀ r, TokenM.rr r ∉ out := by
  cases st <;> simp only [pzStep] at heq <;> repeat' split at heq
  all_goals cases heq
  all_goals simp

/-- Every RR emitted by the parser loop from a state satisfying the origin
and header invariants has a fully qualified name. -/
theorem pzLoop_fqdn (fs : Fs) :
    ∀ (f : List Char) (incl : Nat) (ts : List lex) (st : St) (h : RR_Header)
      (defttl : Nat) (origin : List Char),
    IsFqdn origin = true → hdrInv st h →
    ∀ r, TokenM.rr r ∈ parseZoneLoop fs f incl ts st h defttl origin →
      IsFqdn r.Hdr.Name = true := by
  intro f incl ts st h defttl origin
  induction f, incl, ts, st, h, defttl, origin using parseZoneLoop.induct fs with
  | case1 f incl st h defttl origin =>
    intro _ _ r hr
    rw [parseZoneLoop_nil] at hr
    simp at hr
  | case2 f incl st h defttl origin l ts' herr =>
    intro _ _ r hr
    rw [parseZoneLoop_cons, if_pos herr] at hr
    simp at hr
  | case3 f incl st h defttl origin l ts' herr out hstep =>
    intro _ _ r hr
    rw [parseZoneLoop_cons, if_neg herr, hstep] at hr
    exact absurd hr (pzStep_stop f l ts' st h defttl origin out hstep r)
  | case4 f incl st h defttl origin l ts' herr out st' h' defttl' origin' rest hstep ih =>
    intro ho hh r hr
    rw [parseZoneLoop_cons, if_neg herr, hstep] at hr
    simp only [List.mem_append] at hr
    obtain ⟨hout, ho', hh'⟩ :=
      pzStep_fqdn f l ts' st h defttl origin out st' h' defttl' origin' rest ho hh hstep
    rcases hr with hr | hr
    · exact hout r hr
    · exact ih ho' hh' r hr
  | case5 f incl st h defttl origin l ts' herr ltok hstep hfs =>
    intro _ _ r hr
    rw [parseZoneLoop_cons, if_neg herr, hstep] at hr
    dsimp only at hr
    rw [hfs] at hr
    simp at hr
  | case6 f incl st h defttl origin l ts' herr ltok hstep content hfs hdeep =>
    intro _ _ r hr
    rw [parseZoneLoop_cons, if_neg herr, hstep] at hr
    dsimp only at hr
    rw [hfs] at hr
    dsimp only at hr
    rw [if_pos hdeep] at hr
    simp at hr
  | case7 f incl st h defttl origin l ts' herr ltok hstep content hfs hdeep ih1 ih2 =>
    intro ho hh r hr
    rw [parseZoneLoop_cons, if_neg herr, hstep] at hr
    dsimp only at hr
    rw [hfs] at hr
    dsimp only at hr
    rw [if_neg hdeep] at hr
    simp only [List.mem_append] at hr
    rcases hr with hr | hr
    · exact ih1 (by decide) (by intro hq; simp [nameSt] at hq) r hr
    · exact ih2 ho (by intro hq; simp [nameSt] at hq) r hr

/-! ## The TTL bound invariant (claim C6) -/

/-- The `uint32` conversion is bounded by `2^32`. -/
theorem toUint32_lt (i : Int) : toUint32 i < 2 ^ 32 := by
  unfold toUint32
  have h1 := Int.emod_nonneg i (show (2 ^ 32 : Int) ≠ 0 by decide)
  have h2 := Int.emod_lt_of_pos i (show (0 : Int) < 2 ^ 32 by decide)
  omega

/-- A TTL produced by `stringToTtl` is bounded by `2^32`. -/
theorem stringToTtl_lt (l : lex) (f : List Char) (t : Nat)
    (heq : stringToTtl l f = .ok t) : t < 2 ^ 32 := by
  unfold stringToTtl at heq
  split at heq
  · exact Except.noConfusion heq
  · injection heq with h
    rw [← h]
    exact toUint32_lt _

/-- The TTL invariant of the parser loop: both the pending header TTL and
the default TTL are `uint32` values. -/
def ttlInv (h : RR_Header) (defttl : Nat) : Prop :=
  h.Ttl < 2 ^ 32 ∧ defttl < 2 ^ 32

set_option maxHeartbeats 1000000 in
/-- One parser step preserves the TTL invariant, and any RR it emits has a
TTL below `2^32`. -/
theorem pzStep_ttl (f : List Char) (l : lex) (ts : List lex) (st : St)
    (h : RR_Header) (defttl : Nat) (origin : List Char) (out : List TokenM)
    (st' : St) (h' : RR_Header) (defttl' : Nat) (origin' : List Char)
    (rest : List lex) (hi : ttlInv h defttl)
    (heq : pzStep f l ts st h defttl origin = .cont out st' h' defttl' origin' rest) :
    (∀ r, TokenM.rr r ∈ out → r.Hdr.Ttl < 2 ^ 32) ∧ ttlInv h' defttl' := by
  cases st <;> simp only [pzStep] at heq <;> repeat' split at heq
  all_goals cases heq
  all_goals refine ⟨?_, ?_, ?_⟩
  all_goals first
    | (simp; done)
    | exact hi.1
    | exact hi.2
    | simpa using hi.1
    | simpa using hi.2
    | simpa using stringToTtl_lt l f _ (by assumption)
    | (intro r hr
       simp only [List.mem_singleton] at hr
       cases hr
       rw [setRR_hdr h ts origin f _ (by assumption)]
       exact hi.1)

/-- Every RR emitted by the parser loop from a state satisfying the TTL
invariant has a TTL below `2^32`. -/
theorem pzLoop_ttl (fs : Fs) :
    ∀ (f : List Char) (incl : Nat) (ts : List lex) (st : St) (h : RR_Header)
      (defttl : Nat) (origin : List Char),
    ttlInv h defttl →
    ∀ r, TokenM.rr r ∈ parseZoneLoop fs f incl ts st h defttl origin →
      r.Hdr.Ttl < 2 ^ 32 := by
  intro f incl ts st h defttl origin
  induction f, incl, ts, st, h, defttl, origin using parseZoneLoop.induct fs with
  | case1 f incl st h defttl origin =>
    intro _ r hr
    rw [parseZoneLoop_nil] at hr
    simp at hr
  | case2 f incl st h defttl origin l ts' herr =>
    intro _ r hr
    rw [parseZoneLoop_cons, if_pos herr] at hr
    simp at hr
  | case3 f incl st h defttl origin l ts' herr out hstep =>
    intro _ r hr
    rw [parseZoneLoop_cons, if_neg herr, hstep] at hr
    exact absurd hr (pzStep_stop f l ts' st h defttl origin out hstep r)
  | case4 f incl st h defttl origin l ts' herr out st' h' defttl' origin' rest hstep ih =>
    intro hi r hr
    rw [parseZoneLoop_cons, if_neg herr, hstep] at hr
    simp only [List.mem_append] at hr
    obtain ⟨hout, hi'⟩ :=
      pzStep_ttl f l ts' st h defttl origin out st' h' defttl' origin' rest hi hstep
    rcases hr with hr | hr
    · exact hout r hr
    · exact ih hi' r hr
  | case5 f incl st h defttl origin l ts' herr ltok hstep hfs =>
    intro _ r hr
    rw [parseZoneLoop_cons, if_neg herr, hstep] at hr
    dsimp only at hr
    rw [hfs] at hr
    simp at hr
  | case6 f incl st h defttl origin l ts' herr ltok hstep content hfs hdeep =>
    intro _ r hr
    rw [parseZoneLoop_cons, if_neg herr, hstep] at hr
    dsimp only at hr
    rw [hfs] at hr
    dsimp only at hr
    rw [if_pos hdeep] at hr
    simp at hr
  | case7 f incl st h defttl origin l ts' herr ltok hstep content hfs hdeep ih1 ih2 =>
    intro hi r hr
    rw [parseZoneLoop_cons, if_neg herr, hstep] at hr
    dsimp only at hr
    rw [hfs] at hr
    dsimp only at hr
    rw [if_neg hdeep] at hr
    simp only [List.mem_append] at hr
    rcases hr with hr | hr
    · exact ih1 (by constructor <;> decide) r hr
    · exact ih2 hi r hr

/-! ## Error placement (claim C3) -/

/-- Whether the stream contains errors only in its final position (so in
particular at most one error). -/
def errorsAtEndB : List TokenM → Bool
  | [] => true
  | [_] => true
  | .err _ :: _ :: _ => false
  | .rr _ :: rest => errorsAtEndB rest

/-- A leading RR does not affect error placement. -/
theorem errorsAtEndB_rr (r : RRm) (L : List TokenM) :
    errorsAtEndB (.rr r :: L) = errorsAtEndB L := by
  cases L <;> rfl

set_option maxHeartbeats 1000000 in
/-- A stopping parser step emits exactly one error. -/
theorem pzStep_stop_err (f : List Char) (l : lex) (ts : List lex) (st : St)
    (h : RR_Header) (defttl : Nat) (origin : List Char) (out : List TokenM)
    (heq : pzStep f l ts st h defttl origin = .stop out) :
    ∃ e, out = [.err e] := by
  cases st <;> simp only [pzStep] at heq <;> repeat' split at heq
  all_goals cases heq
  all_goals exact ⟨_, rfl⟩

set_option maxHeartbeats 1000000 in
/-- A continuing parser step emits nothing or one RR, never an error. -/
theorem pzStep_cont_out (f : List Char) (l : lex) (ts : List lex) (st : St)
    (h : RR_Header) (defttl : Nat) (origin : List Char) (out : List TokenM)
    (st' : St) (h' : RR_Header) (defttl' : Nat) (origin' : List Char)
    (rest : List lex)
    (heq : pzStep f l ts st h defttl origin = .cont out st' h' defttl' origin' rest) :
    out = [] ∨ ∃ r, out = [.rr r] := by
  cases st <;> simp only [pzStep] at heq <;> repeat' split at heq
  all_goals cases heq
  all_goals first
    | exact Or.inl rfl
    | exact Or.inr ⟨_, rfl⟩

/-- With a file system on which every open fails, every error the parser
loop emits terminates the stream: errors appear only in final position. -/
theorem pzLoop_errsLast :
    ∀ (f : List Char) (incl : Nat) (ts : List lex) (st : St) (h : RR_Header)
      (defttl : Nat) (origin : List Char),
    errorsAtEndB (parseZoneLoop emptyFs f incl ts st h defttl origin) = true := by
  intro f incl ts st h defttl origin
  induction f, incl, ts, st, h, defttl, origin using parseZoneLoop.induct emptyFs with
  | case1 f incl st h defttl origin =>
    rw [parseZoneLoop_nil]
    rfl
  | case2 f incl st h defttl origin l ts' herr =>
    rw [parseZoneLoop_cons, if_pos herr]
    rfl
  | case3 f incl st h defttl origin l ts' herr out hstep =>
    rw [parseZoneLoop_cons, if_neg herr, hstep]
    obtain ⟨e, rfl⟩ := pzStep_stop_err f l ts' st h defttl origin out hstep
    rfl
  | case4 f incl st h defttl origin l ts' herr out st' h' defttl' origin' rest hstep ih =>
    rw [parseZoneLoop_cons, if_neg herr, hstep]
    dsimp only
    rcases pzStep_cont_out f l ts' st h defttl origin out st' h' defttl' origin'
        rest hstep with rfl | ⟨r, rfl⟩
    · simpa using ih
    · rw [List.singleton_append, errorsAtEndB_rr]
      exact ih
  | case5 f incl st h defttl origin l ts' herr ltok hstep hfs =>
    rw [parseZoneLoop_cons, if_neg herr, hstep]
    dsimp only
    rw [hfs]
    rfl
  | case6 f incl st h defttl origin l ts' herr ltok hstep content hfs hdeep =>
    exact absurd hfs (by simp [emptyFs])
  | case7 f incl st h defttl origin l ts' herr ltok hstep content hfs hdeep ih1 ih2 =>
    exact absurd hfs (by simp [emptyFs])

/-! ## Adjacent-BLANK freedom of the lexer (claim C7) -/

/-- Whether a lexer token is a `_BLANK` token (an error token is not a
token of the stream proper, whatever its stale `value` field holds). -/
def isBlankTok (t : lex) : Bool := t.value == vBLANK && t.err == []

/-- `chainOk b L` holds when `L` contains no two adjacent `_BLANK` tokens,
where `b` records whether the token immediately before `L` was a `_BLANK`. -/
def chainOk : Bool → List lex → Bool
  | _, [] => true
  | b, t :: ts => (!(b && isBlankTok t)) && chainOk (isBlankTok t) ts

/-- A chain that is blank-free after a blank is blank-free after anything. -/
theorem chainOk_mono (L : List lex) (b : Bool) (hL : chainOk true L = true) :
    chainOk b L = true := by
  cases L with
  | nil => rfl
  | cons t ts =>
    simp only [chainOk, Bool.and_eq_true, Bool.not_eq_true'] at hL ⊢
    exact ⟨by cases b <;> simp_all, hL.2⟩

/-- The token flushed for an owner word is never a `_BLANK`. -/
theorem classifyOwner_notBlank (st : ZLexSt) :
    isBlankTok (classifyOwner st) = false := by
  unfold classifyOwner isBlankTok
  repeat' split
  all_goals simp

/-- The token flushed for a non-owner word is never a `_BLANK`. -/
theorem classifyString_notBlank (st : ZLexSt) :
    isBlankTok (classifyString st).1 = false := by
  unfold classifyString isBlankTok
  repeat' split
  all_goals simp

/-- Flushing an owner token does not change the stored error text. -/
theorem classifyOwner_err (st : ZLexSt) :
    (classifyOwner st).err = st.l.err := by
  unfold classifyOwner
  rfl

/-- Flushing a word token does not change the stored error text. -/
theorem classifyString_err (st : ZLexSt) :
    (classifyString st).1.err = st.l.err := by
  unfold classifyString
  repeat' split
  all_goals rfl

/-- An owner-flush token never carries the `_BLANK` kind. -/
theorem classifyOwner_val (st : ZLexSt) : ¬ (classifyOwner st).value = 2 := by
  unfold classifyOwner
  repeat' split
  all_goals simp

/-- A word-flush token never carries the `_BLANK` kind. -/
theorem classifyString_val (st : ZLexSt) : ¬ (classifyString st).1.value = 2 := by
  unfold classifyString
  repeat' split
  all_goals simp

/-- The space case of the lexer preserves the invariants, leaves
`space = true`, and never creates adjacent `_BLANK`s. -/
theorem zlexSpace_chain (st : ZLexSt) (b : Bool) (hcommt : st.commt = false)
    (herr : st.l.err = []) (hb : b = true → st.space = true ∨ st.str ≠ []) :
    (zlexSpace st).2.commt = false ∧ (zlexSpace st).2.l.err = [] ∧
    (zlexSpace st).2.space = true ∧
    ∃ b', (b' = true → (zlexSpace st).2.space = true ∨ (zlexSpace st).2.str ≠ []) ∧
      ∀ L, chainOk b' L = true → chainOk b ((zlexSpace st).1 ++ L) = true := by
  have hsp' : (zlexSpace st).2.space = true := by
    simp [zlexSpace]
  refine ⟨?_, ?_, hsp', ?_⟩
  · simp [zlexSpace, zlexFlushSpace, zlexBlank, hcommt]
    repeat' split
    all_goals simp [hcommt]
  · simp [zlexSpace, zlexFlushSpace, zlexBlank]
    repeat' split
    all_goals simp_all [classifyOwner, classifyString]
    all_goals repeat' split
    all_goals simp_all
  by_cases hstr : st.str = []
  · by_cases hsp : st.space = true
    · refine ⟨b, fun _ => Or.inl hsp', ?_⟩
      intro L hL
      simpa [zlexSpace, zlexFlushSpace, zlexBlank, hstr, hsp, hcommt] using hL
    · have hbf : b = false := by
        cases b with
        | false => rfl
        | true =>
          exfalso
          rcases hb rfl with hx | hx
          · exact hsp hx
          · exact hx hstr
      refine ⟨true, fun _ => Or.inl hsp', ?_⟩
      intro L hL
      simp [zlexSpace, zlexFlushSpace, zlexBlank, hstr, hsp, hcommt, hbf,
        chainOk, isBlankTok, herr]
      exact hL
  · by_cases how : st.owner = true
    · by_cases hsp : st.space = true
      · refine ⟨false, fun hx => absurd hx (by simp), ?_⟩
        intro L hL
        simp [zlexSpace, zlexFlushSpace, zlexBlank, hstr, how, hsp, hcommt,
          chainOk, classifyOwner_notBlank st]
        exact hL
      · refine ⟨true, fun _ => Or.inl hsp', ?_⟩
        intro L hL
        simp [zlexSpace, zlexFlushSpace, zlexBlank, hstr, how, hsp, hcommt,
          chainOk, classifyOwner_notBlank st, classifyOwner_err, isBlankTok, herr]
        exact ⟨Or.inr (classifyOwner_val st), classifyOwner_val st, hL⟩
    · by_cases hsp : st.space = true
      · refine ⟨false, fun hx => absurd hx (by simp), ?_⟩
        intro L hL
        simp [zlexSpace, zlexFlushSpace, zlexBlank, hstr, how, hsp, hcommt,
          chainOk, classifyString_notBlank st]
        exact hL
      · refine ⟨true, fun _ => Or.inl hsp', ?_⟩
        intro L hL
        simp [zlexSpace, zlexFlushSpace, zlexBlank, hstr, how, hsp, hcommt,
          chainOk, classifyString_notBlank st, classifyString_err, isBlankTok, herr]
        exact ⟨Or.inr (classifyString_val st), classifyString_val st, hL⟩

/-- A newline-flush token never carries the `_BLANK` kind. -/
theorem classifyNl_val (st : ZLexSt) : ¬ (classifyNl st).1.value = 2 := by
  unfold classifyNl
  repeat' split
  all_goals simp

/-- Flushing at a newline does not change the stored error text. -/
theorem classifyNl_err (st : ZLexSt) :
    (classifyNl st).1.err = st.l.err := by
  unfold classifyNl
  repeat' split
  all_goals rfl

/-- The newline case of the lexer preserves the invariants and never
creates adjacent `_BLANK`s. -/
theorem zlexNewline_chain (st : ZLexSt) (b : Bool) (hcommt : st.commt = false)
    (herr : st.l.err = []) (hb : b = true → st.space = true ∨ st.str ≠ []) :
    (zlexNewline st).2.commt = false ∧ (zlexNewline st).2.l.err = [] ∧
    ∃ b', (b' = true → (zlexNewline st).2.space = true ∨ (zlexNewline st).2.str ≠ []) ∧
      ∀ L, chainOk b' L = true → chainOk b ((zlexNewline st).1 ++ L) = true := by
  refine ⟨?_, ?_, ?_⟩
  · simp [zlexNewline, zlexNlString]
    repeat' split
    all_goals simp
  · simp [zlexNewline, zlexNlString]
    repeat' split
    all_goals simp_all [classifyNl_err, herr]
  by_cases hstr : st.str ≠ []
  · by_cases hbr : st.brace > 0
    · by_cases hsp2 : st.space = true
      · refine ⟨false, fun hx => absurd hx (by simp), ?_⟩
        intro L hL
        simp [zlexNewline, zlexNlString, hstr, hbr, hsp2, chainOk,
          classifyNl_val st, classifyNl_err, isBlankTok, herr]
        rw [show ((classifyNl st).1.value == 2) = false from by simp [classifyNl_val st]]
        exact hL
      · refine ⟨true, ?_, ?_⟩
        · intro _
          left
          simp [zlexNewline, zlexNlString, hstr, hbr, hsp2]
        · intro L hL
          simp [zlexNewline, zlexNlString, hstr, hbr, hsp2, chainOk,
            classifyNl_val st, classifyNl_err, isBlankTok, herr]
          exact hL
    · refine ⟨false, fun hx => absurd hx (by simp), ?_⟩
      intro L hL
      simp [zlexNewline, zlexNlString, hstr, hbr, chainOk,
        classifyNl_val st, classifyNl_err, isBlankTok, herr]
      exact hL
  · by_cases hbr : st.brace > 0
    · by_cases hsp2 : st.space = true
      · refine ⟨b, ?_, ?_⟩
        · intro _
          left
          simp [zlexNewline, zlexNlString, hstr, hbr, hsp2]
        · intro L hL
          simpa [zlexNewline, zlexNlString, hstr, hbr, hsp2] using hL
      · have hbf : b = false := by
          cases b with
          | false => rfl
          | true =>
            exfalso
            rcases hb rfl with hx | hx
            · exact hsp2 hx
            · exact hx (by simpa using hstr)
        refine ⟨true, ?_, ?_⟩
        · intro _
          left
          simp [zlexNewline, zlexNlString, hstr, hbr, hsp2]
        · intro L hL
          simp [zlexNewline, zlexNlString, hstr, hbr, hsp2, hbf, chainOk,
            isBlankTok, herr]
          exact hL
    · refine ⟨false, fun hx => absurd hx (by simp), ?_⟩
      intro L hL
      simp [zlexNewline, zlexNlString, hstr, hbr, chainOk, isBlankTok, herr]
      exact hL

set_option maxHeartbeats 1000000 in
/-- For semicolon-free input, the lexer run never emits two adjacent
`_BLANK` tokens, given the running invariants on the lexer state. -/
theorem zlexAux_chain :
    ∀ (cs : List Char) (st : ZLexSt) (line col : Nat) (b : Bool),
    ';' ∉ cs → st.commt = false → st.l.err = [] →
    (b = true → st.space = true ∨ st.str ≠ []) →
    chainOk b (zlexAux st line col cs) = true := by
  intro cs
  induction cs with
  | nil =>
    intro st line col b _ _ herr hb
    simp only [zlexAux]
    split
    · simp [chainOk, isBlankTok, herr]
    · rfl
  | cons c cs ih =>
    intro st line col b hsemi hcommt herr hb
    have hcne : c ≠ ';' := fun hcc => hsemi (hcc ▸ List.mem_cons_self c cs)
    have hsemi' : ';' ∉ cs := fun hm => hsemi (List.mem_cons_of_mem c hm)
    simp only [zlexAux]
    set st1 : ZLexSt := { st with l := { st.l with line := line, column := col } } with hst1
    have hc1 : st1.commt = false := hcommt
    have he1 : st1.l.err = [] := herr
    have hb1 : b = true → st1.space = true ∨ st1.str ≠ [] := hb
    by_cases hsp : c = ' ' ∨ c = '\t'
    · rw [zlexStep, if_pos hsp]
      set st2 : ZLexSt := { st1 with escape := false } with hst2
      rw [if_neg (by simp [hst2, hc1, hcommt])]
      dsimp only
      obtain ⟨hc', he', hs', b', hb', happ⟩ :=
        zlexSpace_chain st2 b hc1 he1 hb1
      exact happ _ (ih _ _ _ _ hsemi' hc' he' hb')
    · rw [zlexStep, if_neg hsp, if_neg hcne]
      by_cases hnl : c = '\n'
      · rw [if_pos hnl]
        set st2 : ZLexSt := { st1 with escape := false } with hst2
        rw [if_neg (by simp [hst2, hc1, hcommt])]
        dsimp only
        obtain ⟨hc', he', b', hb', happ⟩ :=
          zlexNewline_chain st2 b hc1 he1 hb1
        exact happ _ (ih _ _ _ _ hsemi' hc' he' hb')
      · rw [if_neg hnl]
        by_cases hbs : c = '\\'
        · rw [if_pos hbs, if_neg (by simp [hc1, hcommt])]
          by_cases hesc : st1.escape = true
          · rw [if_pos hesc]
            dsimp only
            exact ih _ _ _ _ hsemi' hc1 he1 (fun _ => Or.inr (by simp))
          · rw [if_neg hesc]
            dsimp only
            exact ih _ _ _ _ hsemi' hc1 he1 (fun _ => Or.inr (by simp))
        · rw [if_neg hbs]
          by_cases hq : c = '"'
          · rw [if_pos hq, if_neg (by simp [hc1, hcommt])]
            by_cases hesc : st1.escape = true
            · rw [if_pos hesc]
              dsimp only
              exact ih _ _ _ _ hsemi' hc1 he1 (fun _ => Or.inr (by simp))
            · rw [if_neg hesc]
              dsimp only
              refine ih _ _ _ _ hsemi' hc1 he1 ?_
              intro hbt
              rcases hb1 hbt with hx | hx
              · exact Or.inl hx
              · exact Or.inr hx
          · rw [if_neg hq]
            by_cases hop : c = '('
            · rw [if_pos hop, if_neg (by simp [hc1, hcommt])]
              by_cases hesc : st1.escape = true
              · rw [if_pos hesc]
                dsimp only
                exact ih _ _ _ _ hsemi' hc1 he1 (fun _ => Or.inr (by simp))
              · rw [if_neg hesc]
                dsimp only
                refine ih _ _ _ _ hsemi' hc1 he1 ?_
                intro hbt
                rcases hb1 hbt with hx | hx
                · exact Or.inl hx
                · exact Or.inr hx
            · rw [if_neg hop]
              by_cases hcl : c = ')'
              · rw [if_pos hcl, if_neg (by simp [hc1, hcommt])]
                by_cases hesc : st1.escape = true
                · rw [if_pos hesc]
                  dsimp only
                  exact ih _ _ _ _ hsemi' hc1 he1 (fun _ => Or.inr (by simp))
                · rw [if_neg hesc]
                  by_cases hbz : st1.brace = 0
                  · rw [if_pos hbz]
                    dsimp only
                    simp [chainOk, isBlankTok, strL]
                  · rw [if_neg hbz]
                    dsimp only
                    refine ih _ _ _ _ hsemi' hc1 he1 ?_
                    intro hbt
                    rcases hb1 hbt with hx | hx
                    · exact Or.inl hx
                    · exact Or.inr hx
              · rw [if_neg hcl, if_neg (by simp [hc1, hcommt])]
                dsimp only
                exact ih _ _ _ _ hsemi' hc1 he1 (fun _ => Or.inr (by simp))

/-! ## Concrete evaluation helper -/

/-- Evaluation form of `parseZoneF_sound`: when the fuel suffices, the
channel contents of `parseZone` are computed by `parseZoneF`. -/
theorem parseZone_eval (fs : Fs) (fuel : Nat) (cs f : List Char)
    (h : (parseZoneF fs fuel cs f).isSome = true) :
    parseZone fs cs f = (parseZoneF fs fuel cs f).getD [] := by
  obtain ⟨L, hL⟩ := Option.isSome_iff_exists.mp h
  rw [parseZoneF_sound fs fuel cs f L hL, hL]
  rfl

/-- A file system providing exactly one file, `bad`, with contents `x`. -/
def incFs : Fs := fun n => if n = strL "bad" then some (strL "x") else none

/-! ## The claims -/

/-- C1: for every input, every RR successfully emitted by
`parseZone`/`ParseZone` has a fully qualified header name: `Hdr.Name` ends
in a dot.  A non-FQDN owner token gets the current origin appended, and the
origin (initially `.`) is itself always fully qualified. -/
theorem claim_C1 (fs : Fs) (cs file : List Char) (r : RRm)
    (hr : TokenM.rr r ∈ parseZone fs cs file) :
    IsFqdn r.Hdr.Name = true := by
  refine pzLoop_fqdn fs file 0 (zlexer cs) .OWNER_DIR {} DefaultTtl
    (strL ".") (by decide) ?_ r hr
  intro hq
  simp [nameSt] at hq

/-- Witness for C1: the invariant at the concrete parse of `a. A 1.2.3.4`. -/
theorem claim_C1_witness :
    IsFqdn (⟨⟨strL "a.", 1, 1, 3600, 0⟩, .A [1, 2, 3, 4]⟩ : RRm).Hdr.Name = true := by
  refine claim_C1 emptyFs (strL "a. A 1.2.3.4\n") [] _ ?_
  rw [parseZone_eval emptyFs 99 (strL "a. A 1.2.3.4\n") [] (by decide)]
  decide

/-- C2: parsing `$ORIGIN miek.nl.`, `$TTL 300`, `www IN A 10.0.0.1` (three
lines) does NOT produce the claimed A record `www.miek.nl.`: the
`_EXPECT_DIRORIGIN` case of `parseZone` stores the new origin but never
assigns `st`, so the state stays `_EXPECT_DIRORIGIN` and the newline that
follows the origin value is rejected with "Expecting $ORIGIN value, not
this...".  The run emits that single error and no RR at all. -/
theorem claim_C2 :
    rrsOf (parseZone emptyFs
        (strL "$ORIGIN miek.nl.\n$TTL 300\nwww IN A 10.0.0.1\n") []) = [] ∧
    errTextsOf (parseZone emptyFs
        (strL "$ORIGIN miek.nl.\n$TTL 300\nwww IN A 10.0.0.1\n") []) =
      [strL "Expecting $ORIGIN value, not this..."] := by
  rw [parseZone_eval emptyFs 99
    (strL "$ORIGIN miek.nl.\n$TTL 300\nwww IN A 10.0.0.1\n") [] (by decide)]
  exact ⟨by decide, by decide⟩

/-- C3 counterexample: with a file system on which `bad` opens (contents
`x`), the input `$INCLUDE bad` followed by `a. A 1.2.3.4` emits a
`ParseError` (from inside the included file) and THEN a successful RR: the
first error does not terminate the stream, because `parseZone` neither
stops nor propagates when a nested include's parse errors. -/
theorem claim_C3_counterexample :
    (parseZone incFs (strL "$INCLUDE bad\na. A 1.2.3.4\n") []).map isErrTok =
      [true, false] := by
  rw [parseZone_eval incFs 99 (strL "$INCLUDE bad\na. A 1.2.3.4\n") [] (by decide)]
  decide

/-- C3 (amended): when no `$INCLUDE` succeeds (every open fails), the
stream `parseZone` produces is finite — it is a `List` — and every
`ParseError` in it is in final position, so there is at most one and it
terminates the emission. -/
theorem claim_C3 (cs file : List Char) :
    errorsAtEndB (parseZone emptyFs cs file) = true :=
  pzLoop_errsLast file 0 (zlexer cs) .OWNER_DIR {} DefaultTtl (strL ".")

/-- C4 counterexample: parsing `miek.nl. IN TXT "hello ; world"` (plus a
newline) does not yield rdata text `hello ; world`: when the lexer meets
the quoted `;` it has a pending space flag, and the `_STRING` case emits
the semicolon token without first flushing the space, so the interior
whitespace before `;` is lost. -/
theorem claim_C4_counterexample :
    rrsOf (parseZone emptyFs (strL "miek.nl. IN TXT \"hello ; world\"\n") []) ≠
      [⟨⟨strL "miek.nl.", TypeTXT, ClassINET, DefaultTtl, 0⟩,
        .TXT (strL "hello ; world")⟩] := by
  rw [parseZone_eval emptyFs 99
    (strL "miek.nl. IN TXT \"hello ; world\"\n") [] (by decide)]
  decide

/-- C4 (amended): parsing `miek.nl. IN TXT "hello ; world"` (plus a
newline) yields exactly one TXT RR, and its rdata text is `hello ;world`:
the semicolon survives inside the quotes, but the space pending before it
is dropped. -/
theorem claim_C4 :
    parseZone emptyFs (strL "miek.nl. IN TXT \"hello ; world\"\n") [] =
      [.rr ⟨⟨strL "miek.nl.", TypeTXT, ClassINET, DefaultTtl, 0⟩,
        .TXT (strL "hello ;world")⟩] := by
  rw [parseZone_eval emptyFs 99
    (strL "miek.nl. IN TXT \"hello ; world\"\n") [] (by decide)]
  decide

/-- C5: a record line after the first whose owner is elided (the line
begins with whitespace) is NOT parsed with the previous owner carried
over: the lexer's owner flag is only rearmed at a newline (`owner = true`)
so the leading blank reaches the parser as `_BLANK` while the parser is in
`_EXPECT_OWNER_DIR`, whose switch has no `_BLANK` case, and the record is
rejected with "Error at the start".  Here `a. IN A 127.0.0.1` followed by
a line ` IN A 127.0.0.2` yields one RR and then that error. -/
theorem claim_C5 :
    (parseZone emptyFs (strL "a. IN A 127.0.0.1\n IN A 127.0.0.2\n") []).map
        isErrTok = [false, true] ∧
    errTextsOf (parseZone emptyFs (strL "a. IN A 127.0.0.1\n IN A 127.0.0.2\n") []) =
      [strL "Error at the start"] := by
  rw [parseZone_eval emptyFs 99
    (strL "a. IN A 127.0.0.1\n IN A 127.0.0.2\n") [] (by decide)]
  exact ⟨by decide, by decide⟩

/-- C6 counterexample: the record line `a. 3000000000 A 1.2.3.4` is
emitted as an RR carrying `Ttl = 3000000000`, which exceeds `2^31 - 1`:
`stringToTtl` converts through `uint32` and never checks the RFC 2181
bound. -/
theorem claim_C6_counterexample :
    (rrsOf (parseZone emptyFs (strL "a. 3000000000 A 1.2.3.4\n") [])).map
        (fun r => r.Hdr.Ttl) = [3000000000] ∧
    ¬ (3000000000 ≤ 2 ^ 31 - 1) := by
  constructor
  · rw [parseZone_eval emptyFs 99 (strL "a. 3000000000 A 1.2.3.4\n") [] (by decide)]
    decide
  · decide

/-- C6 (amended): every RR successfully emitted by the parser satisfies
`Hdr.Ttl < 2^32`: TTLs are stored through a `uint32` conversion, so the
enforced bound is the `uint32` range, not `2^31 - 1`. -/
theorem claim_C6 (fs : Fs) (cs file : List Char) (r : RRm)
    (hr : TokenM.rr r ∈ parseZone fs cs file) :
    r.Hdr.Ttl < 2 ^ 32 :=
  pzLoop_ttl fs file 0 (zlexer cs) .OWNER_DIR {} DefaultTtl (strL ".")
    (by constructor <;> decide) r hr

/-- Witness for C6: the bound at the concrete parse of `mx. A 5.6.7.8`. -/
theorem claim_C6_witness :
    (⟨⟨strL "mx.", 1, 1, 3600, 0⟩, .A [5, 6, 7, 8]⟩ : RRm).Hdr.Ttl < 2 ^ 32 := by
  refine claim_C6 emptyFs (strL "mx. A 5.6.7.8\n") [] _ ?_
  rw [parseZone_eval emptyFs 99 (strL "mx. A 5.6.7.8\n") [] (by decide)]
  decide

/-- C7 counterexample: on the input `a (b;c` + newline + ` d` the lexer
emits `_OWNER`, `_BLANK`, `_BLANK`, `_STRING` — two adjacent `_BLANK`
tokens: the comment inside the parentheses discards the pending text but
leaves the space-coalescing flags behind. -/
theorem claim_C7_counterexample :
    (zlexer (strL "a (b;c\n d")).map (fun t => t.value) =
      [vOWNER, vBLANK, vBLANK, vSTRING] ∧
    chainOk false (zlexer (strL "a (b;c\n d")) = false := by
  exact ⟨by decide, by decide⟩

/-- C7 (amended): for every semicolon-free input, the lexer never emits
two adjacent `_BLANK` tokens.  (With a semicolon the property fails, as a
comment inside parentheses discards the pending word between two flushed
blanks; and the lexer does emit `_BLANK` immediately before `_NEWLINE` at
brace depth 0, e.g. on a line ending in a space, so the depth proviso of
the original claim does not hold either.) -/
theorem claim_C7 (cs : List Char) (h : ';' ∉ cs) :
    chainOk false (zlexer cs) = true :=
  zlexAux_chain cs {} 1 1 false h rfl rfl (fun hb => Bool.noConfusion hb)

/-- Witness for C7 at the concrete semicolon-free input `a b` + newline. -/
theorem claim_C7_witness : chainOk false (zlexer (strL "a b\n")) = true :=
  claim_C7 (strL "a b\n") (by decide)

/-- C8: `Push s r` reports `true` and appends `r` exactly when `s` is
empty or `r`'s header Name and Class both equal those of `s`'s first
element — the TTL is never compared — and whenever it reports `false` the
set is returned unchanged. -/
theorem claim_C8 (s : List RRm) (r : RRm) :
    (Push s r = (true, s ++ [r]) ↔
      (s = [] ∨ ∃ first rest, s = first :: rest ∧
        first.Hdr.Name = r.Hdr.Name ∧ first.Hdr.Class = r.Hdr.Class)) ∧
    ((Push s r).1 = false → (Push s r).2 = s) := by
  constructor
  · constructor
    · intro hp
      match s with
      | [] => exact Or.inl rfl
      | first :: rest =>
        by_cases h1 : first.Hdr.Name = r.Hdr.Name
        · by_cases h2 : first.Hdr.Class = r.Hdr.Class
          · exact Or.inr ⟨first, rest, rfl, h1, h2⟩
          · simp [Push, h1, h2] at hp
        · simp [Push, h1] at hp
    · rintro (rfl | ⟨first, rest, rfl, h1, h2⟩)
      · rfl
      · simp [Push, h1, h2]
  · intro hf
    match s with
    | [] => simp [Push] at hf
    | first :: rest =>
      by_cases h1 : first.Hdr.Name = r.Hdr.Name
      · by_cases h2 : first.Hdr.Class = r.Hdr.Class
        · simp [Push, h1, h2] at hf
        · simp [Push, h1, h2]
      · simp [Push, h1]

/-- Witness for C8: a push onto the empty set succeeds and appends; a push
with a differing name reports `false` and leaves the set unchanged. -/
theorem claim_C8_witness :
    Push [] (⟨⟨strL "w.", 1, 1, 30, 0⟩, .TXT []⟩ : RRm) =
      (true, [⟨⟨strL "w.", 1, 1, 30, 0⟩, .TXT []⟩]) ∧
    (Push [⟨⟨strL "w.", 1, 1, 30, 0⟩, .TXT []⟩]
        (⟨⟨strL "v.", 1, 1, 30, 0⟩, .TXT []⟩ : RRm)).2 =
      [⟨⟨strL "w.", 1, 1, 30, 0⟩, .TXT []⟩] := by
  constructor
  · exact (claim_C8 [] _).1.mpr (Or.inl rfl)
  · exact (claim_C8 [⟨⟨strL "w.", 1, 1, 30, 0⟩, .TXT []⟩] _).2 (by decide)

/-- C9: `NewRR` indexes `s[len(s)-1]` unconditionally, so on the empty
string it panics (modelled as `none`) and returns neither an RR nor a
`ParseError`, while on every non-empty string the index is in bounds and a
result is produced. -/
theorem claim_C9 (fs : Fs) (s : List Char) :
    NewRR fs [] = none ∧ (s ≠ [] → (NewRR fs s).isSome = true) := by
  refine ⟨rfl, ?_⟩
  intro hs
  match s with
  | [] => exact absurd rfl hs
  | c :: s' => rfl

/-- Witness for C9 at the concrete one-character input `q`. -/
theorem claim_C9_witness :
    NewRR emptyFs [] = none ∧ (NewRR emptyFs (strL "q")).isSome = true :=
  ⟨(claim_C9 emptyFs []).1, (claim_C9 emptyFs (strL "q")).2 (by decide)⟩

/-- C10: in the parser state `_EXPECT_ANY_NOTTL` (after owner, TTL and a
blank), any token that is neither `_CLASS` nor `_RRTYPE` is consumed
silently — no emission, no error, no state change — and consequently the
input `a. 3600 garbage A 1.2.3.4` still parses to the expected A record,
the word `garbage` being skipped. -/
theorem claim_C10 :
    (∀ (f : List Char) (l : lex) (ts : List lex) (h : RR_Header)
       (defttl : Nat) (origin : List Char),
       l.value ≠ vCLASS → l.value ≠ vRRTYPE →
       pzStep f l ts .ANY_NOTTL h defttl origin =
         .cont [] .ANY_NOTTL h defttl origin ts) ∧
    rrsOf (parseZone emptyFs (strL "a. 3600 garbage A 1.2.3.4\n") []) =
      [⟨⟨strL "a.", TypeA, ClassINET, 3600, 0⟩, .A [1, 2, 3, 4]⟩] := by
  constructor
  · intro f l ts h defttl origin hc hr
    simp only [pzStep]
    rw [if_neg hc, if_neg hr]
  · rw [parseZone_eval emptyFs 99 (strL "a. 3600 garbage A 1.2.3.4\n") [] (by decide)]
    decide

/-- Witness for C10: the silent-skip equation at a concrete garbage token. -/
theorem claim_C10_witness :
    pzStep [] { token := strL "garbage", value := vSTRING } [] .ANY_NOTTL {}
        3600 (strL ".") =
      .cont [] .ANY_NOTTL {} 3600 (strL ".") [] :=
  (claim_C10).1 [] { token := strL "garbage", value := vSTRING } [] {} 3600
    (strL ".") (by decide) (by decide)
